import Mathlib

/-!
# WinAPI launcher: a shallow embedding

The development follows the C++ sources of the `WinAPI` project
(`modules/base/WinAPI` and `modules/launcher/WinAPI`).  Every function of the
program that touches the operating system is written in state-passing style
over a `World`: the part of the kernel namespace the program can observe, and
the trace of the calls it has made.  Values the operating system hands back
(handles, error codes, wait results, queued messages) are inputs of the
embedded functions.

Conventions:
* a `HANDLE` is a natural number and `0` is `nullptr`;
* a `DWORD` is a natural number, reduced modulo `2 ^ 32` where the program
  converts it;
* an event name is the string the program passes; its conversion to a wide,
  NUL-terminated string (`ToUtf16`, `c_str`) is taken to be faithful;
* a `std::unique_ptr<T>` is an `Option T`.
-/

namespace Win32

/-! ## Machine values -/

abbrev HANDLE := Nat
abbrev HWND := Nat
abbrev DWORD := Nat

/-- The error `CreateEventW` reports when it opened an existing object. -/
def ERROR_ALREADY_EXISTS : DWORD := 183

def WAIT_OBJECT_0 : DWORD := 0

def WAIT_FAILED : DWORD := 0xFFFFFFFF

def WM_QUIT : Nat := 0x0012

/-- Conversion of a 32-bit unsigned value to `int` (two's complement), as in
`return val;` of `Process::GetExitCode` and `(int)msg.wParam`. -/
def toInt (v : Nat) : Int :=
  if v % 2 ^ 32 < 2 ^ 31 then ((v % 2 ^ 32 : Nat) : Int)
  else ((v % 2 ^ 32 : Nat) : Int) - 2 ^ 32

/-- The character with code 0, the terminator of C strings. -/
def NUL : Char := Char.ofNat 0

/-! ## ProcessEnvironment (`ProcessEnvironment.h`, `ProcessEnvironment.cpp`) -/

/-- The order `std::less<std::string>` of the map keys: lexicographic on the
characters, a proper prefix coming first. -/
def keyLess : List Char → List Char → Bool
  | [], [] => false
  | [], _ :: _ => true
  | _ :: _, [] => false
  | a :: as, b :: bs =>
      if a.toNat < b.toNat then true
      else if b.toNat < a.toNat then false
      else keyLess as bs

/-- The assignment `m[name] = value` on a `std::map<std::string, std::string>`
kept as a list ordered by key. -/
def mapAssign (name value : String) : List (String × String) → List (String × String)
  | [] => [(name, value)]
  | (k, v) :: rest =>
      if k = name then (k, value) :: rest
      else if keyLess name.data k.data then (name, value) :: (k, v) :: rest
      else (k, v) :: mapAssign name value rest

/-- The class `ProcessEnvironment`: its only member is the map `m_vars`. -/
structure ProcessEnvironment where
  m_vars : List (String × String) := []
deriving DecidableEq

namespace ProcessEnvironment

/-- The lookup `m_vars.find(name)`, giving the mapped value. -/
def find (e : ProcessEnvironment) (name : String) : Option String :=
  e.m_vars.lookup name

def Contains (e : ProcessEnvironment) (name : String) : Bool :=
  (e.find name).isSome

def Insert (e : ProcessEnvironment) (name value : String) : ProcessEnvironment :=
  { m_vars := mapAssign name value e.m_vars }

/-- The method `ProcessEnvironment::ToStringList`: the loop over `m_vars` that
pushes `p.first + '=' + p.second` at the back of the result. -/
def ToStringList (e : ProcessEnvironment) : List String :=
  e.m_vars.foldl (fun r p => r ++ [p.1.push '=' ++ p.2]) []

/-- The invariant of the `std::map` member: the keys are strictly increasing,
hence distinct. -/
def isMap (e : ProcessEnvironment) : Prop :=
  e.m_vars.Pairwise (fun a b => keyLess a.1.data b.1.data = true)

instance (e : ProcessEnvironment) : Decidable e.isMap :=
  inferInstanceAs (Decidable (List.Pairwise _ _))

/-- The inner loop `while (*(++ptr) != NUL);` of `GetSystemEnvironment`.  The
argument is the block from `ptr + 1` on; the result is the characters passed
over and the block after the NUL at which the loop stops.  A read behind the
last character of the block is `none`. -/
def scanToNul : List Char → Option (List Char × List Char)
  | [] => none
  | c :: rest =>
      if c = NUL then some ([], rest)
      else
        match scanToNul rest with
        | some r => some (c :: r.1, r.2)
        | none => none

/-- The outer loop of `GetSystemEnvironment`, `data` being the block from
`begin` on and `r` the environment built so far.  Each turn reads `*begin`,
runs the inner loop, finds the first `=` of `[begin, ptr)` and inserts the
name before it with the value after it.  The result is `none` when a read
leaves the block, when `[eq + 1, ptr)` is not a range (no `=` in the entry),
and when the number of turns exceeds `fuel`. -/
def parseBlock : Nat → List Char → ProcessEnvironment → Option ProcessEnvironment
  | 0, _, _ => none
  | _ + 1, [], _ => none
  | fuel + 1, c :: rest, r =>
      if c = NUL then some r
      else
        match scanToNul rest with
        | none => none
        | some (body, after) =>
            let entry := c :: body
            if entry.contains '=' then
              let name := String.mk (entry.takeWhile (fun x => x != '='))
              let val := String.mk (entry.dropWhile (fun x => x != '=')).tail
              parseBlock fuel after (r.Insert name val)
            else none

/-- The function `ProcessEnvironment::GetSystemEnvironment`, `data` being the
block `GetEnvironmentStrings` returns.  Every turn of the outer loop passes
over at least one character, so the fuel is never used up. -/
def GetSystemEnvironment (data : List Char) : Option ProcessEnvironment :=
  parseBlock (data.length + 1) data {}

end ProcessEnvironment

/-! ## The observable world -/

/-- A queued window message: the fields of `MSG` the launcher reads. -/
structure MSG where
  message : Nat
  wParam : Nat
deriving DecidableEq

/-- The calls the program makes that are visible outside of it. -/
inductive Effect where
  | print (line : String)
  | CreateEventW (name : String) (result : HANDLE)
  | OpenEventW (name : String) (result : HANDLE)
  | SetEvent (h : HANDLE)
  | CloseHandle (h : HANDLE)
  | Show
  | CreateWindow (result : HWND)
  | Close
  | CloseWindow (w : HWND)
  | CreateProcess (path : String) (env : Option ProcessEnvironment) (result : HANDLE)
  | AllowSetForegroundWindow (process : HANDLE)
  | MsgWaitForMultipleObjects (handles : List HANDLE)
  | GetExitCodeProcess (process : HANDLE)
  | DispatchMessage (msg : MSG)
  | PostQuitMessage (code : Int)
  | RegCloseKey (key : HANDLE)
deriving DecidableEq

/-- Whether an effect is a call of `SplashScreen::Show`. -/
def Effect.isShow : Effect → Bool
  | Effect.Show => true
  | _ => false

/-- Whether an effect is a call of `CreateProcess`. -/
def Effect.isCreateProcess : Effect → Bool
  | Effect.CreateProcess _ _ _ => true
  | _ => false

/-- Neither a call of `SplashScreen::Show` nor one of `CreateProcess`. -/
def Effect.isQuiet (e : Effect) : Bool :=
  !e.isShow && !e.isCreateProcess

/-- What the program can observe of the system: the named events other
processes keep alive, the event handles this process holds (each with the name
of its object), the thread's last error, and the calls made so far.  A named
event exists as long as some handle to it is open anywhere. -/
structure World where
  foreign : List String := []
  events : List (HANDLE × String) := []
  last_error : DWORD := 0
  trace : List Effect := []
deriving DecidableEq

namespace World

/-- Whether a named event object currently exists. -/
def eventExists (w : World) (name : String) : Bool :=
  w.foreign.contains name || (w.events.map Prod.snd).contains name

def emit (w : World) (e : Effect) : World :=
  { w with trace := w.trace ++ [e] }

/-- The world `w1` is `w` after further calls, all of which satisfy `ok`. -/
def extendsBy (w w1 : World) (ok : Effect → Bool) : Prop :=
  ∃ added, w1.trace = w.trace ++ added ∧ ∀ e ∈ added, ok e = true

/-- The call `CreateEventW(nullptr, TRUE, FALSE, name)`.  The system answers
with `reply`; a null reply is a failure leaving `err` as last error.  On
success the last error tells whether the object existed before the call. -/
def CreateEventW (w : World) (name : String) (reply : HANDLE) (err : DWORD) : HANDLE × World :=
  if reply = 0 then
    (0, { w with last_error := err, trace := w.trace ++ [Effect.CreateEventW name 0] })
  else
    (reply, { w with
      events := (reply, name) :: w.events
      last_error := if w.eventExists name then ERROR_ALREADY_EXISTS else 0
      trace := w.trace ++ [Effect.CreateEventW name reply] })

/-- The call `OpenEventW(EVENT_MODIFY_STATE, FALSE, name)`: it yields no handle
when no object of that name exists. -/
def OpenEventW (w : World) (name : String) (reply : HANDLE) (err : DWORD) : HANDLE × World :=
  if reply = 0 ∨ w.eventExists name = false then
    (0, { w with last_error := err, trace := w.trace ++ [Effect.OpenEventW name 0] })
  else
    (reply, { w with
      events := (reply, name) :: w.events
      trace := w.trace ++ [Effect.OpenEventW name reply] })

/-- Removal of the first table entry for a handle. -/
def dropHandle (h : HANDLE) : List (HANDLE × String) → List (HANDLE × String)
  | [] => []
  | (h', n) :: rest => if h' = h then rest else (h', n) :: dropHandle h rest

/-- The call `CloseHandle(h)`. -/
def CloseHandle (w : World) (h : HANDLE) : World :=
  { w with events := dropHandle h w.events, trace := w.trace ++ [Effect.CloseHandle h] }

end World

/-! ## ErrorCode and Exception (`ErrorCode.h`, `Exception.h`, `Exception.cpp`) -/

structure ErrorCode where
  m_value : Int := 0
deriving DecidableEq

/-- The function `Win32::GetLastError()`: wraps the thread's last error. -/
def GetLastError (w : World) : ErrorCode :=
  { m_value := toInt w.last_error }

/-- The class `Exception`.  `what_code` stands for the `std::runtime_error`
message: `what()` is `GetErrorMessage(what_code)`, the text `FormatMessageW`
gives for that code.  `m_err` is the member of that name. -/
structure Exception where
  what_code : Int
  m_err : ErrorCode
deriving DecidableEq

/-- The constructor `Exception::Exception(const ErrorCode& err)`: its
initialiser list is `std::runtime_error(err.Message())` alone, so `m_err` is
default-constructed. -/
def Exception.new (err : ErrorCode) : Exception :=
  { what_code := err.m_value, m_err := {} }

def Exception.GetErrorCode (e : Exception) : ErrorCode :=
  e.m_err

/-! ## Event (`Event.h`, `EventImpl.h`, `Event.cpp`) -/

structure EventPriv where
  name : String := ""
  handle : HANDLE := 0
  created : Bool := false
deriving DecidableEq

/-- The class `Event`: it owns an `EventPriv` through `d`, or is null. -/
structure Event where
  d : Option EventPriv := none
deriving DecidableEq

/-- The function `GetHANDLE(const Event&)`. -/
def GetHANDLE (e : Event) : HANDLE :=
  match e.d with
  | some p => p.handle
  | none => 0

namespace Event

def IsNull (e : Event) : Bool :=
  e.d.isNone

def Created (e : Event) : Bool :=
  match e.d with
  | some p => p.created
  | none => false

def GetName (e : Event) : String :=
  match e.d with
  | none => ""
  | some p => p.name

/-- The method `Event::Set`; `ok` is the result of `SetEvent`. -/
def Set (e : Event) (ok : Bool) (w : World) : Bool × World :=
  match e.d with
  | some p => (ok, w.emit (Effect.SetEvent p.handle))
  | none => (false, w)

def Close (e : Event) (w : World) : Event × World :=
  match e.d with
  | some p => ({ d := none }, w.CloseHandle p.handle)
  | none => (e, w)

/-- The destructor `Event::~Event`: `Close()` followed by `d.reset()`. -/
def destroy (e : Event) (w : World) : World :=
  (e.Close w).2

/-- A number of successive calls of `Close()` on the same event. -/
def closeTimes : Nat → Event → World → Event × World
  | 0, e, w => (e, w)
  | n + 1, e, w => closeTimes n (e.Close w).1 (e.Close w).2

/-- The constructor `Event::Event(const std::string&)`: create or open. -/
def new (eventName : String) (reply : HANDLE) (err : DWORD) (w : World) :
    Except Exception Event × World :=
  let r := w.CreateEventW eventName reply err
  if r.1 = 0 then
    (Except.error (Exception.new (GetLastError r.2)), r.2)
  else
    (Except.ok { d := some { name := eventName, handle := r.1,
                             created := r.2.last_error != ERROR_ALREADY_EXISTS } }, r.2)

/-- The function `Event::Open`. -/
def Open (eventName : String) (reply : HANDLE) (err : DWORD) (w : World) :
    Except Exception Event × World :=
  let r := w.OpenEventW eventName reply err
  if r.1 = 0 then
    (Except.error (Exception.new (GetLastError r.2)), r.2)
  else
    (Except.ok { d := some { name := eventName, handle := r.1 } }, r.2)

/-- The function `Event::Create`. -/
def Create (eventName : String) (reply : HANDLE) (err : DWORD) (w : World) :
    Except Exception Event × World :=
  let r := w.CreateEventW eventName reply err
  let created : Bool := if r.1 = 0 then false else r.2.last_error != ERROR_ALREADY_EXISTS
  if r.1 = 0 ∨ created = false then
    let w2 := if r.1 = 0 then r.2 else r.2.CloseHandle r.1
    (Except.error (Exception.new (GetLastError w2)), w2)
  else
    (Except.ok { d := some { name := eventName, handle := r.1, created := created } }, r.2)

/-- The move assignment `a = std::move(b)` for two distinct objects: the result
is the new `a`, the moved-from `b`, and the world.  For distinct objects the
pointers `d` and `other.d` differ whenever `d` is not null. -/
def moveAssign (self other : Event) (w : World) : Event × Event × World :=
  let r := if self.d.isSome then self.Close w else (self, w)
  ({ d := other.d }, { d := none }, r.2)

end Event

/-! ## SplashScreen (`SplashScreen.h`, `splashscreen_priv.h`, `SplashScreen.cpp`) -/

/-- The struct `Impl::SplashScreenPriv`; the image resource and the bitmap play
no part in what follows and are left out. -/
structure SplashScreenPriv where
  window_handle : HWND := 0
  close_event : Event := {}
deriving DecidableEq

namespace SplashScreen

/-- The method `SplashScreen::CreateCloseEvent`: an exception of `Event::Create`
is swallowed, and the result is whether `close_event` is non-null afterwards. -/
def CreateCloseEvent (ss : SplashScreenPriv) (name : String) (reply : HANDLE) (err : DWORD)
    (w : World) : Bool × SplashScreenPriv × World :=
  let r := Event.Create name reply err w
  match r.1 with
  | Except.ok e =>
      let a := Event.moveAssign ss.close_event e r.2
      (!a.1.IsNull, { ss with close_event := a.1 }, a.2.2)
  | Except.error _ => (!ss.close_event.IsNull, ss, r.2)

def GetCloseEvent (ss : SplashScreenPriv) : Event :=
  ss.close_event

/-- The method `SplashScreen::Show`; `window` is what `create_splash_window`
returns. -/
def Show (ss : SplashScreenPriv) (window : HWND) (w : World) : SplashScreenPriv × World :=
  let w1 := w.emit Effect.Show
  if ss.window_handle = 0 then
    ({ ss with window_handle := window }, w1.emit (Effect.CreateWindow window))
  else (ss, w1)

/-- The method `SplashScreen::Close`. -/
def Close (ss : SplashScreenPriv) (w : World) : World :=
  let w1 := w.emit Effect.Close
  if ss.window_handle = 0 then w1 else w1.emit (Effect.CloseWindow ss.window_handle)

end SplashScreen

/-- The name `CloseSplashScreen(appname)` passes to `Event::Open`; `env` is the
result of `std::getenv("CLOSE_SPLASHSCREEN_EVENT_NAME")`, `none` for a null
pointer. -/
def CloseSplashScreen.event_name (appname : String) (env : Option String) : String :=
  let computed_event_name := appname ++ "CloseSplashScreenEvent"
  match env with
  | none => computed_event_name
  | some v => v

/-- The function `CloseSplashScreen(appname)`: `reply` and `err` are the answer
of `OpenEventW`, `set_ok` the result of `SetEvent`.  The local event is
destroyed when the function returns. -/
def CloseSplashScreen (appname : String) (env : Option String) (reply : HANDLE) (err : DWORD)
    (set_ok : Bool) (w : World) : World :=
  let r := Event.Open (CloseSplashScreen.event_name appname env) reply err w
  match r.1 with
  | Except.error _ => r.2.emit (Effect.print "Event::Open() failed")
  | Except.ok opened =>
      let a := Event.moveAssign {} opened r.2
      let e := a.1
      let s := e.Set set_ok a.2.2
      let w3 := if s.1 then s.2 else s.2.emit (Effect.print "SetEvent() failed")
      e.destroy w3

/-! ## Process (`Process.h`, `processpriv.h`, `Process.cpp`) -/

structure ProcessPriv where
  executable_path : String := ""
  environment : Option ProcessEnvironment := none
  handle : HANDLE := 0
deriving DecidableEq

namespace Process

def SetExecutablePath (p : ProcessPriv) (exePath : String) : ProcessPriv :=
  { p with executable_path := exePath }

def SetProcessEnvironment (p : ProcessPriv) (penv : ProcessEnvironment) : ProcessPriv :=
  { p with environment := some penv }

/-- The method `Process::Start`; `reply` is `pi.hProcess` after `CreateProcess`,
null when no process was created. -/
def Start (p : ProcessPriv) (reply : HANDLE) (w : World) : ProcessPriv × World :=
  if p.executable_path = "" then (p, w)
  else
    ({ p with handle := reply },
     w.emit (Effect.CreateProcess p.executable_path p.environment reply))

/-- The vector `envdata` of `Process::Start` for the environment `penv`: the
characters of every string of `ToStringList()` followed by a NUL, then one
more NUL. -/
def environmentBlock (penv : ProcessEnvironment) : List Char :=
  penv.ToStringList.foldl (fun envdata str => envdata ++ str.data ++ [NUL]) [] ++ [NUL]

/-- The method `Process::GetExitCode`; `val` is the value `GetExitCodeProcess`
stores, and the `DWORD` is returned as an `int`. -/
def GetExitCode (p : ProcessPriv) (val : DWORD) (w : World) : Int × World :=
  (toInt val, w.emit (Effect.GetExitCodeProcess p.handle))

end Process

/-! ## Launcher (`Launcher.h`, `Launcher.cpp`) -/

namespace Impl

/-- The function `Impl::compute_close_event_name`; `tick` is what
`GetTickCount()` returns, written in decimal by `std::to_string`. -/
def compute_close_event_name (appname : String) (single_instance : Bool) (tick : DWORD) :
    String :=
  let ev_name := appname ++ "CloseSplashScreenEvent"
  if !single_instance then ev_name ++ Nat.repr tick else ev_name

end Impl

/-- The number a string of decimal digits denotes. -/
def decimalValue (digits : List Char) : Nat :=
  digits.foldl (fun acc c => acc * 10 + (c.toNat - 48)) 0

/-- The struct `Impl::LauncherPriv`.  The launcher does not own the splash
screen it points to; `ss` holds the state of that object, `none` for a null
pointer. -/
structure LauncherPriv where
  appname : String := ""
  ss : Option SplashScreenPriv := none
  executable_name : String := ""
  executable_path : String := ""
  single_instance : Bool := false
  single_instance_event : Event := {}
  app_exit_code : Int := 0
deriving DecidableEq

/-- The two `std::filesystem::path` operations `Run` uses on UTF-8 strings:
`parent_path()` and `operator/` (followed by `u8string()`).  Appending a
non-empty path never gives the empty path. -/
structure Filesystem where
  parent_path : String → String
  append : String → String → String
  append_ne_empty : ∀ dir name, name ≠ "" → append dir name ≠ ""

/-- What the system answers while `Run` sets the launch up, in the order of the
calls: `CreateEventW` for the guard, `GetTickCount`, `CreateEventW` for the
close event, `CreateWindowEx` for the splash window, `GetModuleFileNameW`,
`GetEnvironmentStrings` as read by `GetSystemEnvironment`, `CreateProcess`. -/
structure Replies where
  guard_handle : HANDLE := 0
  guard_error : DWORD := 0
  tick : DWORD := 0
  close_handle : HANDLE := 0
  close_error : DWORD := 0
  splash_window : HWND := 0
  module_path : String := ""
  sysenv : ProcessEnvironment := {}
  process_handle : HANDLE := 0
deriving DecidableEq

/-- One return of `MsgWaitForMultipleObjects` together with what the program
may read next: the messages `PeekMessage` yields one after the other, and the
value `GetExitCodeProcess` stores. -/
structure WaitStep where
  wait_result : DWORD
  queue : List MSG := []
  exit_code : DWORD := 0
  last_error : DWORD := 0
deriving DecidableEq

/-- How a call of `Run` ends. -/
inductive Exit where
  | already_running
  | not_started
  | quit
  | process_exited
  | thrown (e : Exception)
  | blocked
deriving DecidableEq

namespace Launcher

/-- The constructor `Launcher::Launcher(appname, ss)`. -/
def new (appname : String) (ss : Option SplashScreenPriv) : LauncherPriv :=
  { appname := appname, ss := ss }

def SetExecutableName (d : LauncherPriv) (exeName : String) : LauncherPriv :=
  { d with executable_name := exeName }

def SetExecutablePath (d : LauncherPriv) (exePath : String) : LauncherPriv :=
  { d with executable_path := exePath }

def PreventMultipleInstances (d : LauncherPriv) : LauncherPriv :=
  { d with single_instance := true }

def GetApplicationExitCode (d : LauncherPriv) : Int :=
  d.app_exit_code

/-- The state of `Run` when it has started the child: the launcher, the local
process `p`, the local vector `handles`, and the world. -/
structure LoopState where
  d : LauncherPriv
  p : ProcessPriv
  handles : List HANDLE
  w : World
deriving DecidableEq

/-- The result of a call of `Run`: the launcher and the world afterwards, and
how the call ended. -/
structure Outcome where
  d : LauncherPriv
  w : World
  exit : Exit
deriving DecidableEq

/-- Lines 120-128 of `Run`: the single-instance guard.  The result is the exit
taken, if any, with the launcher and the world. -/
def guard (d : LauncherPriv) (os : Replies) (w : World) : Option Exit × LauncherPriv × World :=
  if d.single_instance then
    let r := Event.new (d.appname ++ "InstanceRunning") os.guard_handle os.guard_error w
    match r.1 with
    | Except.error e => (some (Exit.thrown e), d, r.2)
    | Except.ok ev =>
        let a := Event.moveAssign d.single_instance_event ev r.2
        let d1 := { d with single_instance_event := a.1 }
        if !d1.single_instance_event.Created then
          (some Exit.already_running, d1,
            a.2.2.emit (Effect.print "app already running, exiting..."))
        else (none, d1, a.2.2)
  else (none, d, w)

/-- Lines 130-142 of `Run`: the splash screen and its close event.  The result
is the launcher, the vector `handles`, and the world. -/
def splash (d : LauncherPriv) (os : Replies) (w : World) : LauncherPriv × List HANDLE × World :=
  match d.ss with
  | none => (d, [], w)
  | some ss =>
      let closeEventName := Impl.compute_close_event_name d.appname d.single_instance os.tick
      let r := SplashScreen.CreateCloseEvent ss closeEventName os.close_handle os.close_error w
      if r.1 then
        let sh := SplashScreen.Show r.2.1 os.splash_window r.2.2
        ({ d with ss := some sh.1 }, [GetHANDLE (SplashScreen.GetCloseEvent sh.1)], sh.2)
      else
        ({ d with ss := some r.2.1 }, [],
          r.2.2.emit (Effect.print
            "splashscreen close event creation failed, no splashscreen will be shown"))

/-- Lines 144-155 of `Run`: the path of the executable to start. -/
def exe_path (d : LauncherPriv) (fs : Filesystem) (os : Replies) : String :=
  if d.executable_path = "" then
    let name :=
      if d.executable_name ≠ "" then d.executable_name ++ ".exe"
      else d.appname ++ ".exe"
    let myfolder := fs.parent_path os.module_path
    fs.append myfolder name
  else d.executable_path

/-- Lines 157-164 of `Run`: the process object before `Start`. -/
def prepare (d : LauncherPriv) (fs : Filesystem) (os : Replies) : ProcessPriv :=
  let p := Process.SetExecutablePath {} (exe_path d fs os)
  match d.ss with
  | some ss =>
      if !d.single_instance then
        Process.SetProcessEnvironment p
          (os.sysenv.Insert "CLOSE_SPLASHSCREEN_EVENT_NAME" (SplashScreen.GetCloseEvent ss).GetName)
      else p
  | none => p

/-- Lines 118-173 of `Run`: everything before the wait loop.  The result is
either the way `Run` ended, or the state in which the loop is entered. -/
def setup (d : LauncherPriv) (fs : Filesystem) (os : Replies) (w : World) :
    Outcome ⊕ LoopState :=
  let g := guard d os w
  match g.1 with
  | some e => Sum.inl { d := g.2.1, w := g.2.2, exit := e }
  | none =>
      let s := splash g.2.1 os g.2.2
      let st := Process.Start (prepare s.1 fs os) os.process_handle s.2.2
      if st.1.handle = 0 then
        Sum.inl { d := s.1, w := st.2, exit := Exit.not_started }
      else
        Sum.inr { d := s.1, p := st.1, handles := s.2.1 ++ [st.1.handle],
                  w := st.2.emit (Effect.AllowSetForegroundWindow st.1.handle) }

/-- The world in which the set-up of `Run` ends. -/
def setupWorld : Outcome ⊕ LoopState → World
  | Sum.inl r => r.w
  | Sum.inr s => s.w

/-- Lines 195-205 of `Run`: the `PeekMessage` loop over the messages the queue
yields.  The result tells whether a `WM_QUIT` was met (and re-posted), and gives
the messages left in the queue. -/
def drain (w : World) : List MSG → Bool × List MSG × World
  | [] => (false, [], w)
  | msg :: rest =>
      if msg.message = WM_QUIT then
        (true, rest, w.emit (Effect.PostQuitMessage (toInt msg.wParam)))
      else drain (w.emit (Effect.DispatchMessage msg)) rest

/-- The element erased by `handles.erase(handles.begin() + handle_index)`. -/
def eraseAt (handles : List HANDLE) (handle_index : Nat) : List HANDLE :=
  handles.eraseIdx handle_index

/-- Lines 177-229 of `Run`: one iteration of the wait loop.  The result is the
state after it, and the way `Run` returns if it does. -/
def iteration (s : LoopState) (ev : WaitStep) : Option Exit × LoopState :=
  let w0 := s.w.emit (Effect.MsgWaitForMultipleObjects s.handles)
  let wait_result := ev.wait_result % 2 ^ 32
  if wait_result = WAIT_FAILED then
    (none, { s with w := { w0 with last_error := ev.last_error }.emit (Effect.print "wait failed") })
  else if wait_result = WAIT_OBJECT_0 + s.handles.length then
    let r := drain w0 ev.queue
    (if r.1 then some Exit.quit else none, { s with w := r.2.2 })
  else
    let handle_index := (wait_result + 2 ^ 32 - WAIT_OBJECT_0) % 2 ^ 32
    if handle_index < s.handles.length then
      let h := s.handles.getD handle_index 0
      if h = s.p.handle then
        let c := Process.GetExitCode s.p ev.exit_code w0
        (some Exit.process_exited, { s with d := { s.d with app_exit_code := c.1 }, w := c.2 })
      else
        match s.d.ss with
        | some ss =>
            if !ss.close_event.IsNull then
              (none, { s with handles := eraseAt s.handles handle_index,
                              w := SplashScreen.Close ss w0 })
            else (none, { s with w := w0 })
        | none => (none, { s with w := w0 })
    else (none, { s with w := w0 })

/-- Lines 175-230 of `Run`: the wait loop, run against the successive returns
of the wait.  When they are used up the thread is blocked in the next wait. -/
def loop (s : LoopState) : List WaitStep → Outcome
  | [] => { d := s.d, w := s.w.emit (Effect.MsgWaitForMultipleObjects s.handles),
            exit := Exit.blocked }
  | ev :: rest =>
      match iteration s ev with
      | (some e, s1) => { d := s1.d, w := s1.w, exit := e }
      | (none, s1) => loop s1 rest

/-- The method `Launcher::Run`. -/
def Run (d : LauncherPriv) (fs : Filesystem) (os : Replies) (waits : List WaitStep)
    (w : World) : Outcome :=
  match setup d fs os w with
  | Sum.inl r => r
  | Sum.inr s => loop s waits

/-- The state in which the loop stands after the returns `pre` of the wait, when
none of these iterations made `Run` return. -/
def stateAfter (s : LoopState) : List WaitStep → Option LoopState
  | [] => some s
  | ev :: rest =>
      match iteration s ev with
      | (some _, _) => none
      | (none, s1) => stateAfter s1 rest

/-- The shape of the wait set: the child's handle alone, or the handle of the
splash screen's close event followed by the child's handle. -/
def waitSetOk (s : LoopState) : Prop :=
  s.handles = [s.p.handle] ∨
    ∃ ss, s.d.ss = some ss ∧ s.handles = [GetHANDLE ss.close_event, s.p.handle]

end Launcher

/-! ## RegistryKey (`Registry.h`, `registry_priv.h`, `Registry.cpp`) -/

/-- The struct `Impl::RegistryKeyPriv`. -/
structure RegistryKeyPriv where
  hkey : HANDLE := 0
  predefined : Bool := false
deriving DecidableEq

/-- The class `RegistryKey`: it owns a `RegistryKeyPriv` through `d`, or is
null. -/
structure RegistryKey where
  d : Option RegistryKeyPriv := none
deriving DecidableEq

/-- The map `dict` of `CreatePredefinedRegKey`; the handles are the values
`winreg.h` gives the predefined keys. -/
def predefinedKeys : List (String × HANDLE) :=
  [("HKEY_CLASSES_ROOT", 0x80000000), ("HKEY_CURRENT_CONFIG", 0x80000005),
   ("HKEY_CURRENT_USER", 0x80000001), ("HKEY_LOCAL_MACHINE", 0x80000002),
   ("HKEY_USERS", 0x80000003)]

/-- The function `CreatePredefinedRegKey`; `dict.at(name)` throws for a name
that is not in the map, which is `none` here. -/
def CreatePredefinedRegKey (name : String) : Option RegistryKey :=
  match predefinedKeys.lookup name with
  | some h => some { d := some { hkey := h, predefined := true } }
  | none => none

namespace RegistryKey

def IsNull (k : RegistryKey) : Bool :=
  k.d.isNone

/-- The method `RegistryKey::Close`. -/
def Close (k : RegistryKey) (w : World) : RegistryKey × World :=
  match k.d with
  | some p =>
      if !p.predefined then ({ d := none }, w.emit (Effect.RegCloseKey p.hkey))
      else (k, w)
  | none => (k, w)

end RegistryKey

/-- The function `GetHKEY(const RegistryKey&)`. -/
def GetHKEY (rk : RegistryKey) : HANDLE :=
  match rk.d with
  | some p => p.hkey
  | none => 0

/-- The constant `Registry::HKEY_CURRENT_USER`. -/
def Registry.HKEY_CURRENT_USER : RegistryKey :=
  (CreatePredefinedRegKey "HKEY_CURRENT_USER").getD {}

/-! ## String conversions (`String.cpp`) and string values (`Registry.cpp`)

A `std::string` and a `std::wstring` are both kept as their sequence of
characters, one list element for each UTF-16 code unit; this is what
`MultiByteToWideChar` and `WideCharToMultiByte` do on the characters of the
basic plane, and the two functions are called with explicit sizes, so that
NUL characters are converted like any other. -/

def ToUtf16 (utf8 : String) : List Char :=
  utf8.data

def ToUtf8 (utf16 : List Char) : String :=
  String.mk utf16

/-- The method `std::wstring::resize`: cut, or fill up with NUL. -/
def resize (s : List Char) (n : Nat) : List Char :=
  s.take n ++ List.replicate (n - s.length) NUL

def ERROR_FILE_NOT_FOUND : Nat := 2
def ERROR_MORE_DATA : Nat := 234

/-- The string values of the registry: the code units stored under a key
handle and a value name. -/
abbrev RegStore := List ((HANDLE × List Char) × List Char)

/-- The call `RegSetValueExW(hKey, lpValueName, 0, REG_SZ, lpData, cbData)`.
`memory` is what can be read at `lpData`, of which `cbData` bytes, two for
each code unit, are stored; `status` is the answer of the system, 0
(`ERROR_SUCCESS`) on a key opened with write access. -/
def RegSetValueExW (reg : RegStore) (hKey : HANDLE) (lpValueName memory : List Char)
    (cbData : DWORD) (status : Nat) : Nat × RegStore :=
  if status = 0 then (0, ((hKey, lpValueName), memory.take (cbData / 2)) :: reg)
  else (status, reg)

/-- The call `RegGetValueW(hkey, nullptr, lpValue, RRF_RT_REG_SZ, &type, pvData,
&size)`: the status, the buffer at `pvData` and `size` after the call.  Without
buffer the call stores the size of the data in bytes; with a buffer announced
large enough it copies the data to the front of the buffer and stores the
number of bytes copied, terminator included. -/
def RegGetValueW (reg : RegStore) (hkey : HANDLE) (lpValue : List Char)
    (pvData : Option (List Char)) (size : DWORD) : Nat × Option (List Char) × DWORD :=
  match reg.lookup (hkey, lpValue) with
  | none => (ERROR_FILE_NOT_FOUND, pvData, size)
  | some data =>
      match pvData with
      | none => (0, none, 2 * data.length)
      | some buffer =>
          if size < 2 * data.length then (ERROR_MORE_DATA, some buffer, 2 * data.length)
          else (0, some (data ++ buffer.drop data.length), 2 * data.length)

namespace RegistryKey

/-- The method `RegistryKey::SetValue(const std::string&, const std::string&)`;
the memory at `wvalue.data()` is the characters of `wvalue` and the
terminator. -/
def SetValue (k : RegistryKey) (name value : String) (status : Nat) (reg : RegStore) :
    RegStore :=
  let wname := ToUtf16 name
  let wvalue := ToUtf16 value
  (RegSetValueExW reg (GetHKEY k) wname (wvalue ++ [NUL])
    ((2 * (wvalue.length + 1)) % 2 ^ 32) status).2

/-- The method `RegistryKey::GetStringValue`. -/
def GetStringValue (k : RegistryKey) (name : String) (reg : RegStore) :
    Except Exception String :=
  let wname := ToUtf16 name
  let first := RegGetValueW reg (GetHKEY k) wname none 0
  if first.1 ≠ 0 then
    Except.error (Exception.new { m_value := (first.1 : Int) })
  else
    let size := first.2.2
    let result := resize [] size
    let second := RegGetValueW reg (GetHKEY k) wname (some result) size
    let result := second.2.1.getD result
    let size := second.2.2
    let result := if size > 0 then resize result (size - 1) else []
    Except.ok (ToUtf8 result)

end RegistryKey

/-! ## Concrete runs -/

namespace Sample

/-- A stand-in for `std::filesystem`: one directory, joined with a slash. -/
def fs : Filesystem where
  parent_path := fun _ => "C:/bin"
  append := fun dir name => dir ++ "/" ++ name
  append_ne_empty := by
    intro dir name _ hc
    have h1 := congrArg String.length hc
    simp only [String.length_append] at h1
    have h2 : ("/" : String).length = 1 := rfl
    have h3 : ("" : String).length = 0 := rfl
    omega

/-- Replies of a system on which every call succeeds. -/
def os : Replies :=
  { guard_handle := 4, tick := 1000, close_handle := 8, splash_window := 77,
    module_path := "C:/bin/launcher.exe", sysenv := { m_vars := [("PATH", "x")] },
    process_handle := 12 }

/-- The launcher of the scenario: single instance, no splash, child `kid`. -/
def app : LauncherPriv :=
  Launcher.PreventMultipleInstances (Launcher.SetExecutableName (Launcher.new "App" none) "kid")

/-- A launcher with a splash screen and without the single-instance guard. -/
def splashApp : LauncherPriv :=
  Launcher.new "App" (some {})

/-- A launcher without splash screen and without guard, child `kid`. -/
def plainApp : LauncherPriv :=
  Launcher.SetExecutableName (Launcher.new "App" none) "kid"

/-- The loop state in which `Run` on `splashApp` enters the wait loop. -/
def started : Launcher.LoopState :=
  match Launcher.setup splashApp fs os {} with
  | Sum.inr s => s
  | Sum.inl r => { d := r.d, p := {}, handles := [], w := r.w }

/-- The loop state of `started` once the close event has been signaled. -/
def splashClosed : Launcher.LoopState :=
  (Launcher.iteration started { wait_result := 0 }).2

/-- Replies of a system on which `CreateProcess` creates no process. -/
def osNoProcess : Replies :=
  { os with process_handle := 0 }

/-- Replies of a system that refuses access to the guard event (error 5,
`ERROR_ACCESS_DENIED`). -/
def osDenied : Replies :=
  { os with guard_handle := 0, guard_error := 5 }

/-- Replies of a system whose environment already has a value for the
variable the launcher sets. -/
def osInherited : Replies :=
  { os with sysenv := { m_vars := [("CLOSE_SPLASHSCREEN_EVENT_NAME", "old"), ("PATH", "x")] } }

/-- A world in which another process holds the guard event of `App`. -/
def taken : World :=
  { foreign := ["AppInstanceRunning"] }

/-- A UI event with three queued messages, the second one a `WM_QUIT` carrying
the exit value 7. -/
def uiQuit : WaitStep :=
  { wait_result := 1,
    queue := [{ message := 15, wParam := 0 }, { message := WM_QUIT, wParam := 7 },
              { message := 275, wParam := 1 }] }

/-- A world in which another process holds the close event `splashApp` would
create at tick 1000. -/
def stale : World :=
  { foreign := ["AppCloseSplashScreenEvent1000"] }

/-- A splash screen after a first call of `CreateCloseEvent`, which created the
event `AppCloseSplashScreenEvent` with handle 8, and the world after that call. -/
def withCloseEvent : Bool × SplashScreenPriv × World :=
  SplashScreen.CreateCloseEvent {} "AppCloseSplashScreenEvent" 8 0 {}

/-- A second call of `CreateCloseEvent` with the same name on that splash
screen; the system answers with handle 16. -/
def withCloseEventAgain : Bool × SplashScreenPriv × World :=
  SplashScreen.CreateCloseEvent withCloseEvent.2.1 "AppCloseSplashScreenEvent" 16 0
    withCloseEvent.2.2

/-- A process that was started from `C:/bin/kid.exe` (handle 12) and whose
executable path was then set to the empty string. -/
def restarted : ProcessPriv :=
  Process.SetExecutablePath
    (Process.Start (Process.SetExecutablePath {} "C:/bin/kid.exe") 12 {}).1 ""

/-- A first call of `Run` on `plainApp`, whose child exits with code 3. -/
def firstRun : Launcher.Outcome :=
  Launcher.Run plainApp fs os [{ wait_result := 0, exit_code := 3 }] {}

/-- A second call of `Run` on the same launcher, whose child does not start. -/
def secondRun : Launcher.Outcome :=
  Launcher.Run firstRun.d fs osNoProcess [] firstRun.w

end Sample

/-! ## The wait loop: frame lemmas -/

namespace Launcher

theorem iteration_handles_length (s : LoopState) (ev : WaitStep) :
    (iteration s ev).2.handles.length ≤ s.handles.length := by
  unfold iteration
  simp only
  split_ifs <;> try simp
  split
  · split_ifs <;> simp [eraseAt, List.length_eraseIdx]
    split_ifs <;> omega
  · simp

theorem iteration_p (s : LoopState) (ev : WaitStep) : (iteration s ev).2.p = s.p := by
  unfold iteration
  simp only
  split_ifs <;> try simp
  split
  · split_ifs <;> simp
  · simp

theorem iteration_d (s : LoopState) (ev : WaitStep)
    (h : (iteration s ev).1 ≠ some Exit.process_exited) : (iteration s ev).2.d = s.d := by
  unfold iteration at h ⊢
  simp only at h ⊢
  split_ifs at h ⊢ <;> try simp at h ⊢
  split
  · split_ifs <;> simp
  · simp

theorem splash_handles_length (d : LauncherPriv) (os : Replies) (w : World) :
    (splash d os w).2.1.length ≤ 1 := by
  unfold splash
  split
  · simp
  · simp only
    split_ifs <;> simp

theorem setup_handles_length {d : LauncherPriv} {fs : Filesystem} {os : Replies} {w : World}
    {s : LoopState} (h : setup d fs os w = Sum.inr s) : s.handles.length ≤ 2 := by
  unfold setup at h
  simp only at h
  split at h
  · simp at h
  · split_ifs at h
    simp only [Sum.inr.injEq] at h
    subst h
    have := splash_handles_length (guard d os w).2.1 os (guard d os w).2.2
    simp
    omega

theorem stateAfter_handles_length {s s1 : LoopState} {pre : List WaitStep}
    (h : stateAfter s pre = some s1) : s1.handles.length ≤ s.handles.length := by
  induction pre generalizing s with
  | nil => simp [stateAfter] at h; subst h; exact le_refl _
  | cons ev rest ih =>
    unfold stateAfter at h
    have hl := iteration_handles_length s ev
    split at h
    · simp at h
    · rename_i s2 heq
      have := ih h
      rw [heq] at hl
      simp at hl
      omega

theorem loop_append {s s1 : LoopState} {pre : List WaitStep}
    (h : stateAfter s pre = some s1) (rest : List WaitStep) :
    loop s (pre ++ rest) = loop s1 rest := by
  induction pre generalizing s with
  | nil => simp [stateAfter] at h; subst h; rfl
  | cons ev tl ih =>
    unfold stateAfter at h
    split at h
    · simp at h
    · rename_i s2 heq
      simp only [List.cons_append, loop, heq]
      exact ih h

theorem iteration_child_signaled (s : LoopState) (ev : WaitStep)
    (hlen : s.handles.length ≤ 2)
    (hsig : s.handles[ev.wait_result]? = some s.p.handle) :
    iteration s ev =
      (some Exit.process_exited,
        { s with d := { s.d with app_exit_code := toInt ev.exit_code },
                 w := (s.w.emit (Effect.MsgWaitForMultipleObjects s.handles)).emit
                        (Effect.GetExitCodeProcess s.p.handle) }) := by
  have hlt : ev.wait_result < s.handles.length := by
    by_contra hc
    simp only [DWORD, HANDLE] at *
    have hge : s.handles.length ≤ ev.wait_result := by omega
    rw [List.getElem?_eq_none hge] at hsig
    simp at hsig
  simp only [DWORD, HANDLE] at *
  have hmod : ev.wait_result % 2 ^ 32 = ev.wait_result := Nat.mod_eq_of_lt (by omega)
  have hidx : (ev.wait_result + 2 ^ 32 - WAIT_OBJECT_0) % 2 ^ 32 = ev.wait_result := by
    simp only [WAIT_OBJECT_0, DWORD]
    omega
  have hget : s.handles.getD ev.wait_result 0 = s.p.handle := by
    simp [hsig]
  unfold iteration
  simp only [hmod, hidx, hget]
  have h1 : ev.wait_result ≠ WAIT_FAILED := by simp only [WAIT_FAILED, DWORD]; omega
  have h2 : ev.wait_result ≠ WAIT_OBJECT_0 + s.handles.length := by
    simp only [WAIT_OBJECT_0, DWORD]; omega
  simp [h1, h2, hlt, Process.GetExitCode]

theorem guard_exit_code (d : LauncherPriv) (os : Replies) (w : World) :
    (guard d os w).2.1.app_exit_code = d.app_exit_code ∧
    (guard d os w).1 ≠ some Exit.process_exited := by
  unfold guard
  split_ifs
  · simp only
    split
    · simp
    · split_ifs <;> simp
  · simp

theorem splash_exit_code (d : LauncherPriv) (os : Replies) (w : World) :
    (splash d os w).1.app_exit_code = d.app_exit_code := by
  unfold splash
  split
  · rfl
  · simp only
    split_ifs <;> rfl

theorem setup_exit_code (d : LauncherPriv) (fs : Filesystem) (os : Replies) (w : World) :
    match setup d fs os w with
    | Sum.inl r => r.d.app_exit_code = d.app_exit_code ∧ r.exit ≠ Exit.process_exited
    | Sum.inr s => s.d.app_exit_code = d.app_exit_code := by
  have hg := guard_exit_code d os w
  have hs := splash_exit_code (guard d os w).2.1 os (guard d os w).2.2
  unfold setup
  simp only
  cases hg1 : (guard d os w).1 with
  | some e =>
    simp only
    refine ⟨hg.1, ?_⟩
    intro hc
    apply hg.2
    rw [hg1, hc]
  | none =>
    simp only
    split_ifs
    · simp only
      exact ⟨hs.trans hg.1, by simp⟩
    · simp only
      exact hs.trans hg.1

theorem loop_cons_some {s s1 : LoopState} {ev : WaitStep} {e : Exit}
    (h : iteration s ev = (some e, s1)) (rest : List WaitStep) :
    loop s (ev :: rest) = { d := s1.d, w := s1.w, exit := e } := by
  simp [loop, h]

theorem loop_cons_none {s s1 : LoopState} {ev : WaitStep}
    (h : iteration s ev = (none, s1)) (rest : List WaitStep) :
    loop s (ev :: rest) = loop s1 rest := by
  simp [loop, h]

theorem loop_d (s : LoopState) (waits : List WaitStep)
    (h : (loop s waits).exit ≠ Exit.process_exited) : (loop s waits).d = s.d := by
  induction waits generalizing s with
  | nil => rfl
  | cons ev rest ih =>
    rcases hit : iteration s ev with ⟨_ | e, s1⟩
    · rw [loop_cons_none hit] at h ⊢
      have h2 := iteration_d s ev (by rw [hit]; simp)
      rw [hit] at h2
      rw [ih s1 h]
      exact h2
    · rw [loop_cons_some hit] at h ⊢
      have h2 := iteration_d s ev (by rw [hit]; simpa using h)
      rw [hit] at h2
      exact h2

/-- C1: when the child process starts (`setup` reaches the loop) and, after any
iterations `pre` that do not end the loop, the wait result is the index that
holds the child's handle while `GetExitCodeProcess` gives `E`, `Run` returns by
the process-exit branch and `GetApplicationExitCode` is `E` read as a signed
32-bit integer. -/
theorem Run_records_child_exit_code (d : LauncherPriv) (fs : Filesystem) (os : Replies)
    (w : World) (s s1 : LoopState) (pre post : List WaitStep) (ev : WaitStep)
    (hstart : setup d fs os w = Sum.inr s)
    (hpre : stateAfter s pre = some s1)
    (hsig : s1.handles[ev.wait_result]? = some s1.p.handle) :
    (Run d fs os (pre ++ ev :: post) w).exit = Exit.process_exited ∧
    GetApplicationExitCode (Run d fs os (pre ++ ev :: post) w).d = toInt ev.exit_code := by
  have hlen : s1.handles.length ≤ 2 :=
    le_trans (stateAfter_handles_length hpre) (setup_handles_length hstart)
  have hit := iteration_child_signaled s1 ev hlen hsig
  have hrun : Run d fs os (pre ++ ev :: post) w = loop s1 (ev :: post) := by
    unfold Run
    rw [hstart]
    exact loop_append hpre (ev :: post)
  rw [hrun]
  unfold loop
  rw [hit]
  exact ⟨rfl, rfl⟩

theorem Run_records_child_exit_code_witness :
    setup Sample.splashApp Sample.fs Sample.os {} = Sum.inr Sample.started ∧
    stateAfter Sample.started [{ wait_result := 0 }] = some Sample.splashClosed ∧
    Sample.splashClosed.handles[0]? = some Sample.splashClosed.p.handle ∧
    (Run Sample.splashApp Sample.fs Sample.os
        ([{ wait_result := 0 }] ++ { wait_result := 0, exit_code := 4294967295 } :: []) {}).exit
      = Exit.process_exited ∧
    GetApplicationExitCode (Run Sample.splashApp Sample.fs Sample.os
        ([{ wait_result := 0 }] ++ { wait_result := 0, exit_code := 4294967295 } :: []) {}).d
      = -1 :=
  ⟨by decide, by decide, by decide,
   Run_records_child_exit_code Sample.splashApp Sample.fs Sample.os {} Sample.started
     Sample.splashClosed [{ wait_result := 0 }] [] { wait_result := 0, exit_code := 4294967295 }
     (by decide) (by decide) (by decide)⟩

theorem Run_exit_code_of_not_exited (d : LauncherPriv) (fs : Filesystem) (os : Replies)
    (waits : List WaitStep) (w : World)
    (h : (Run d fs os waits w).exit ≠ Exit.process_exited) :
    (Run d fs os waits w).d.app_exit_code = d.app_exit_code := by
  have hs := setup_exit_code d fs os w
  unfold Run at h ⊢
  cases hsetup : setup d fs os w with
  | inl r =>
    rw [hsetup] at hs
    simp only at hs ⊢
    exact hs.1
  | inr s =>
    rw [hsetup] at hs h
    simp only at hs h ⊢
    rw [loop_d s waits h]
    exact hs

/-- C2, as stated, fails: on a launcher whose first `Run` recorded the exit code
3, a second `Run` whose child does not start returns with
`GetApplicationExitCode` still 3. -/
theorem Run_not_started_after_exit_code :
    Sample.firstRun.exit = Exit.process_exited ∧
    Sample.secondRun.exit = Exit.not_started ∧
    GetApplicationExitCode Sample.secondRun.d = 3 := by
  decide

/-- C2 (amended): a call of `Run` that returns because the child did not start,
because another instance was running, or because a quit message was met leaves
`GetApplicationExitCode` at the value it had before the call. -/
theorem Run_abort_keeps_exit_code (d : LauncherPriv) (fs : Filesystem) (os : Replies)
    (waits : List WaitStep) (w : World)
    (h : (Run d fs os waits w).exit = Exit.not_started ∨
         (Run d fs os waits w).exit = Exit.already_running ∨
         (Run d fs os waits w).exit = Exit.quit) :
    GetApplicationExitCode (Run d fs os waits w).d = GetApplicationExitCode d := by
  apply Run_exit_code_of_not_exited
  rcases h with h | h | h <;> rw [h] <;> simp

theorem Run_abort_keeps_exit_code_witness :
    (Run (Launcher.new "App" none) Sample.fs Sample.osNoProcess [] {}).exit = Exit.not_started ∧
    GetApplicationExitCode (Run (Launcher.new "App" none) Sample.fs Sample.osNoProcess [] {}).d
      = 0 :=
  ⟨by decide,
   Run_abort_keeps_exit_code (Launcher.new "App" none) Sample.fs Sample.osNoProcess [] {}
     (Or.inl (by decide))⟩

/-- C3, as stated, fails: the guard event of `App` exists, the system returns no
handle for it, and `Run` is left by the exception of the `Event` constructor
instead of returning. -/
theorem Run_guard_denied_throws :
    Sample.app.single_instance = true ∧
    Sample.taken.eventExists (Sample.app.appname ++ "InstanceRunning") = true ∧
    (Run Sample.app Sample.fs Sample.osDenied [] Sample.taken).exit
      = Exit.thrown (Exception.new { m_value := 5 }) ∧
    (Run Sample.app Sample.fs Sample.osDenied [] Sample.taken).exit ≠ Exit.already_running := by
  decide

/-- C3 (amended): in single-instance mode, when a signal named
`appname + "InstanceRunning"` already exists, `Run` makes no call besides the
`CreateEventW` of the guard, the release of a guard held before and the
message it prints: it creates no close signal, does not show the splash and
starts no child.  When the system returns a handle the guard's `Created()` is
false and `Run` returns; when it returns none `Run` is left by the exception of
the `Event` constructor. -/
theorem Run_second_instance (d : LauncherPriv) (fs : Filesystem) (os : Replies)
    (waits : List WaitStep) (w : World)
    (hsi : d.single_instance = true)
    (hex : w.eventExists (d.appname ++ "InstanceRunning") = true) :
    (Run d fs os waits w).d.ss = d.ss ∧
    (os.guard_handle ≠ 0 →
      (Run d fs os waits w).exit = Exit.already_running ∧
      (Run d fs os waits w).d.single_instance_event.Created = false ∧
      (Run d fs os waits w).w.trace =
        w.trace ++ Effect.CreateEventW (d.appname ++ "InstanceRunning") os.guard_handle ::
          ((d.single_instance_event.d.toList.map fun p => Effect.CloseHandle p.handle) ++
            [Effect.print "app already running, exiting..."])) ∧
    (os.guard_handle = 0 →
      (Run d fs os waits w).exit = Exit.thrown (Exception.new { m_value := toInt os.guard_error }) ∧
      (Run d fs os waits w).w.trace =
        w.trace ++ [Effect.CreateEventW (d.appname ++ "InstanceRunning") 0]) := by
  by_cases hh : os.guard_handle = 0
  · simp [Run, setup, guard, hsi, Event.new, World.CreateEventW, hh, GetLastError]
  · cases hd : d.single_instance_event.d with
    | none =>
      simp [Run, setup, guard, hsi, Event.new, World.CreateEventW, hh, hex, Event.moveAssign,
        Event.Created, World.emit, hd]
    | some p =>
      simp [Run, setup, guard, hsi, Event.new, World.CreateEventW, hh, hex, Event.moveAssign,
        Event.Created, World.emit, hd, Event.Close, World.CloseHandle]

theorem Run_second_instance_witness :
    (Run Sample.app Sample.fs Sample.os [] Sample.taken).exit = Exit.already_running ∧
    (Run Sample.app Sample.fs Sample.os [] Sample.taken).w.trace =
      [Effect.CreateEventW "AppInstanceRunning" 4, Effect.print "app already running, exiting..."] :=
  ⟨((Run_second_instance Sample.app Sample.fs Sample.os [] Sample.taken
      (by decide) (by decide)).2.1 (by decide)).1,
   ((Run_second_instance Sample.app Sample.fs Sample.os [] Sample.taken
      (by decide) (by decide)).2.1 (by decide)).2.2⟩

end Launcher

theorem lookup_mapAssign_self (name value : String) (m : List (String × String)) :
    (mapAssign name value m).lookup name = some value := by
  induction m with
  | nil => simp [mapAssign, List.lookup]
  | cons kv rest ih =>
    obtain ⟨k, v⟩ := kv
    unfold mapAssign
    split_ifs with h1 h2
    · subst h1
      simp [List.lookup]
    · simp [List.lookup]
    · have hne : (name == k) = false := by
        simp only [beq_eq_false_iff_ne, ne_eq]
        exact fun hc => h1 hc.symm
      simp only [List.lookup, hne]
      exact ih

theorem lookup_mapAssign_ne (name value other : String) (m : List (String × String))
    (h : other ≠ name) : (mapAssign name value m).lookup other = m.lookup other := by
  induction m with
  | nil =>
    have hne : (other == name) = false := by simpa using h
    simp [mapAssign, List.lookup, hne]
  | cons kv rest ih =>
    obtain ⟨k, v⟩ := kv
    unfold mapAssign
    have hne : (other == name) = false := by simpa using h
    split_ifs with h1 h2
    · subst h1
      simp [List.lookup, hne]
    · simp [List.lookup, hne]
    · cases hk : other == k <;> simp [List.lookup, hk, ih]

namespace Launcher

theorem exe_path_ne_empty (d : LauncherPriv) (fs : Filesystem) (os : Replies) :
    exe_path d fs os ≠ "" := by
  have hexe : ∀ x : String, x ++ ".exe" ≠ "" := by
    intro x hc
    have h1 := congrArg String.length hc
    simp only [String.length_append] at h1
    have h2 : (".exe" : String).length = 4 := rfl
    have h3 : ("" : String).length = 0 := rfl
    omega
  unfold exe_path
  split_ifs with h1 h2
  · exact fs.append_ne_empty _ _ (hexe _)
  · exact fs.append_ne_empty _ _ (hexe _)
  · exact h1

theorem drain_trace (q : List MSG) (w : World) : w.trace <+: (drain w q).2.2.trace := by
  induction q generalizing w with
  | nil => exact List.prefix_refl _
  | cons m rest ih =>
    unfold drain
    split_ifs
    · simp [World.emit]
    · exact List.IsPrefix.trans (by simp [World.emit]) (ih _)

theorem iteration_trace (s : LoopState) (ev : WaitStep) :
    s.w.trace ++ [Effect.MsgWaitForMultipleObjects s.handles] <+: (iteration s ev).2.w.trace := by
  have hd := drain_trace ev.queue (s.w.emit (Effect.MsgWaitForMultipleObjects s.handles))
  simp only [World.emit] at hd
  unfold iteration
  simp only
  split_ifs
  · simp [World.emit]
  · simpa [World.emit] using hd
  · simpa [World.emit] using hd
  · simp [World.emit, Process.GetExitCode]
  · split
    · split_ifs
      · simp only [SplashScreen.Close]
        split_ifs <;> simp [World.emit]
      · simp [World.emit]
    · simp [World.emit]
  · simp [World.emit]

theorem loop_trace (s : LoopState) (waits : List WaitStep) :
    s.w.trace ++ [Effect.MsgWaitForMultipleObjects s.handles] <+: (loop s waits).w.trace := by
  induction waits generalizing s with
  | nil => simp [loop, World.emit]
  | cons ev rest ih =>
    have h1 := iteration_trace s ev
    rcases hit : iteration s ev with ⟨_ | e, s1⟩
    · rw [loop_cons_none hit]
      rw [hit] at h1
      exact List.IsPrefix.trans h1 (List.IsPrefix.trans (List.prefix_append _ _) (ih s1))
    · rw [loop_cons_some hit]
      rw [hit] at h1
      exact h1

theorem Run_trace_of_setup (d : LauncherPriv) (fs : Filesystem) (os : Replies)
    (waits : List WaitStep) (w : World) :
    (setupWorld (setup d fs os w)).trace <+: (Run d fs os waits w).w.trace := by
  unfold Run
  cases hs : setup d fs os w with
  | inl r => exact List.prefix_refl _
  | inr s =>
    simp only [setupWorld]
    exact List.IsPrefix.trans (List.prefix_append _ _) (loop_trace s waits)

theorem Start_trace (p : ProcessPriv) (reply : HANDLE) (w : World)
    (h : p.executable_path ≠ "") :
    Process.Start p reply w =
      ({ p with handle := reply },
        w.emit (Effect.CreateProcess p.executable_path p.environment reply)) := by
  simp [Process.Start, h]

theorem prepare_executable_path (d : LauncherPriv) (fs : Filesystem) (os : Replies) :
    (prepare d fs os).executable_path = exe_path d fs os := by
  unfold prepare
  split
  · split_ifs <;> rfl
  · rfl

theorem guard_config (d : LauncherPriv) (os : Replies) (w : World) :
    (guard d os w).2.1.appname = d.appname ∧
    (guard d os w).2.1.executable_name = d.executable_name ∧
    (guard d os w).2.1.executable_path = d.executable_path ∧
    (guard d os w).2.1.single_instance = d.single_instance ∧
    (guard d os w).2.1.ss = d.ss := by
  unfold guard
  split_ifs
  · simp only
    split
    · simp
    · split_ifs <;> simp
  · simp

theorem splash_config (d : LauncherPriv) (os : Replies) (w : World) :
    (splash d os w).1.appname = d.appname ∧
    (splash d os w).1.executable_name = d.executable_name ∧
    (splash d os w).1.executable_path = d.executable_path ∧
    (splash d os w).1.single_instance = d.single_instance := by
  unfold splash
  split
  · simp
  · simp only
    split_ifs <;> simp

theorem exe_path_congr (d d1 : LauncherPriv) (fs : Filesystem) (os : Replies)
    (h1 : d1.appname = d.appname) (h2 : d1.executable_name = d.executable_name)
    (h3 : d1.executable_path = d.executable_path) : exe_path d1 fs os = exe_path d fs os := by
  simp [exe_path, h1, h2, h3]

/-- When the guard lets `Run` go on, the set-up ends with the calls of `splash`
followed by `CreateProcess` on the prepared process and, if a process was
created, `AllowSetForegroundWindow`. -/
theorem setup_trace (d : LauncherPriv) (fs : Filesystem) (os : Replies) (w : World)
    (hg : (guard d os w).1 = none) :
    (setupWorld (setup d fs os w)).trace =
      (splash (guard d os w).2.1 os (guard d os w).2.2).2.2.trace ++
        Effect.CreateProcess (exe_path d fs os)
          (prepare (splash (guard d os w).2.1 os (guard d os w).2.2).1 fs os).environment
          os.process_handle ::
        (if os.process_handle = 0 then []
         else [Effect.AllowSetForegroundWindow os.process_handle]) := by
  have hc := guard_config d os w
  have hs := splash_config (guard d os w).2.1 os (guard d os w).2.2
  have hpath : (prepare (splash (guard d os w).2.1 os (guard d os w).2.2).1 fs os).executable_path
      = exe_path d fs os := by
    rw [prepare_executable_path]
    exact exe_path_congr _ _ fs os (hs.1.trans hc.1) (hs.2.1.trans hc.2.1)
      (hs.2.2.1.trans hc.2.2.1)
  have hne : (prepare (splash (guard d os w).2.1 os (guard d os w).2.2).1 fs os).executable_path
      ≠ "" := by
    rw [hpath]
    exact exe_path_ne_empty d fs os
  unfold setup
  simp only [hg, Start_trace _ _ _ hne, hpath]
  split_ifs with h0
  · simp only [setupWorld, World.emit]
  · simp only [setupWorld, World.emit]
    simp

theorem guard_off (d : LauncherPriv) (os : Replies) (w : World)
    (h : d.single_instance = false) : guard d os w = (none, d, w) := by
  simp [guard, h]

/-- The effect of `splash` when the close event is created by this call. -/
theorem splash_created (d : LauncherPriv) (os : Replies) (w : World) (ss : SplashScreenPriv)
    (hss : d.ss = some ss) (hh : os.close_handle ≠ 0)
    (hnew : w.eventExists
      (Impl.compute_close_event_name d.appname d.single_instance os.tick) = false) :
    (∃ ss1, (splash d os w).1.ss = some ss1 ∧
      ss1.close_event.GetName =
        Impl.compute_close_event_name d.appname d.single_instance os.tick) ∧
    Effect.CreateEventW (Impl.compute_close_event_name d.appname d.single_instance os.tick)
      os.close_handle ∈ (splash d os w).2.2.trace := by
  cases hd : ss.close_event.d <;> by_cases hw : ss.window_handle = 0 <;>
    simp [splash, hss, SplashScreen.CreateCloseEvent, Event.Create,
      World.CreateEventW, hh, hnew, Event.moveAssign, SplashScreen.Show,
      SplashScreen.GetCloseEvent, Event.GetName, Event.IsNull, Event.Close, World.CloseHandle,
      World.emit, hd, hw, ERROR_ALREADY_EXISTS]

/-- C4: with a splash supplied, single-instance mode off and the close event
created by this run (the system returns a handle and no event of the computed
name existed), `Run` creates the close event under the computed name and hands
`CreateProcess` the environment `GetSystemEnvironment()` returned with
`CLOSE_SPLASHSCREEN_EVENT_NAME` assigned that same name: the variable has that
value whatever it was before, and every other variable reads as before. -/
theorem Run_child_environment (d : LauncherPriv) (fs : Filesystem) (os : Replies)
    (waits : List WaitStep) (w : World) (ss : SplashScreenPriv)
    (hss : d.ss = some ss) (hsi : d.single_instance = false)
    (hh : os.close_handle ≠ 0)
    (hnew : w.eventExists (Impl.compute_close_event_name d.appname false os.tick) = false) :
    Effect.CreateEventW (Impl.compute_close_event_name d.appname false os.tick) os.close_handle
      ∈ (Run d fs os waits w).w.trace ∧
    Effect.CreateProcess (exe_path d fs os)
        (some (os.sysenv.Insert "CLOSE_SPLASHSCREEN_EVENT_NAME"
          (Impl.compute_close_event_name d.appname false os.tick)))
        os.process_handle
      ∈ (Run d fs os waits w).w.trace ∧
    (os.sysenv.Insert "CLOSE_SPLASHSCREEN_EVENT_NAME"
        (Impl.compute_close_event_name d.appname false os.tick)).find
        "CLOSE_SPLASHSCREEN_EVENT_NAME"
      = some (Impl.compute_close_event_name d.appname false os.tick) ∧
    ∀ name, name ≠ "CLOSE_SPLASHSCREEN_EVENT_NAME" →
      (os.sysenv.Insert "CLOSE_SPLASHSCREEN_EVENT_NAME"
        (Impl.compute_close_event_name d.appname false os.tick)).find name
      = os.sysenv.find name := by
  refine ⟨?_, ?_, lookup_mapAssign_self _ _ _, fun name hn => lookup_mapAssign_ne _ _ _ _ hn⟩
  · apply (Run_trace_of_setup d fs os waits w).subset
    rw [setup_trace d fs os w (by rw [guard_off d os w hsi]), guard_off d os w hsi]
    have h := (splash_created d os w ss hss hh (by rw [hsi]; exact hnew)).2
    rw [hsi] at h
    exact List.mem_append_left _ h
  · apply (Run_trace_of_setup d fs os waits w).subset
    rw [setup_trace d fs os w (by rw [guard_off d os w hsi]), guard_off d os w hsi]
    obtain ⟨ss1, h1, h2⟩ := (splash_created d os w ss hss hh (by rw [hsi]; exact hnew)).1
    have hsi1 : (splash d os w).1.single_instance = false :=
      (splash_config d os w).2.2.2.trans hsi
    have henv : (prepare (splash d os w).1 fs os).environment =
        some (os.sysenv.Insert "CLOSE_SPLASHSCREEN_EVENT_NAME"
          (Impl.compute_close_event_name d.appname false os.tick)) := by
      rw [hsi] at h2
      simp [prepare, h1, hsi1, Process.SetProcessEnvironment, Process.SetExecutablePath,
        SplashScreen.GetCloseEvent, h2]
    rw [henv]
    simp

theorem Run_child_environment_witness :
    Effect.CreateEventW "AppCloseSplashScreenEvent1000" 8
      ∈ (Run Sample.splashApp Sample.fs Sample.osInherited [] {}).w.trace ∧
    Effect.CreateProcess "C:/bin/App.exe"
        (some { m_vars := [("CLOSE_SPLASHSCREEN_EVENT_NAME", "AppCloseSplashScreenEvent1000"),
                           ("PATH", "x")] }) 12
      ∈ (Run Sample.splashApp Sample.fs Sample.osInherited [] {}).w.trace :=
  ⟨(Run_child_environment Sample.splashApp Sample.fs Sample.osInherited [] {} {}
      (by decide) (by decide) (by decide) (by decide)).1,
   (Run_child_environment Sample.splashApp Sample.fs Sample.osInherited [] {} {}
      (by decide) (by decide) (by decide) (by decide)).2.1⟩

end Launcher

theorem CloseSplashScreen_trace (appname : String) (env : Option String) (reply : HANDLE)
    (err : DWORD) (set_ok : Bool) (w : World) :
    ∃ h rest,
      (CloseSplashScreen appname env reply err set_ok w).trace
        = w.trace ++ Effect.OpenEventW (CloseSplashScreen.event_name appname env) h :: rest ∧
      ∀ n h2, Effect.OpenEventW n h2 ∉ rest := by
  unfold CloseSplashScreen
  generalize CloseSplashScreen.event_name appname env = name
  by_cases hr : reply = 0 ∨ w.eventExists name = false
  · refine ⟨0, [Effect.print "Event::Open() failed"], ?_, ?_⟩
    · simp [Event.Open, World.OpenEventW, hr, World.emit]
    · simp
  · have hr0 : reply ≠ 0 := fun h => hr (Or.inl h)
    have hex : w.eventExists name = true := by
      cases h : w.eventExists name
      · exact absurd (Or.inr h) hr
      · rfl
    cases set_ok
    · refine ⟨reply, [Effect.SetEvent reply, Effect.print "SetEvent() failed",
        Effect.CloseHandle reply], ?_, ?_⟩
      · simp [Event.Open, World.OpenEventW, hex, hr0, World.emit, Event.moveAssign, Event.Set,
          Event.destroy, Event.Close, World.CloseHandle]
      · simp
    · refine ⟨reply, [Effect.SetEvent reply, Effect.CloseHandle reply], ?_, ?_⟩
      · simp [Event.Open, World.OpenEventW, hex, hr0, World.emit, Event.moveAssign, Event.Set,
          Event.destroy, Event.Close, World.CloseHandle]
      · simp

/-- C5: `CloseSplashScreen(appname)` makes one `OpenEventW` call.  Its name is
the value of `CLOSE_SPLASHSCREEN_EVENT_NAME` when `getenv` finds the variable,
and `appname + "CloseSplashScreenEvent"` otherwise, which is the name
`compute_close_event_name(appname, true)` gives whatever the tick count. -/
theorem CloseSplashScreen_opens (appname : String) (reply : HANDLE) (err : DWORD)
    (set_ok : Bool) (w : World) :
    (∀ v : String, ∃ h rest,
      (CloseSplashScreen appname (some v) reply err set_ok w).trace
        = w.trace ++ Effect.OpenEventW v h :: rest ∧
      ∀ n h2, Effect.OpenEventW n h2 ∉ rest) ∧
    (∃ h rest,
      (CloseSplashScreen appname none reply err set_ok w).trace
        = w.trace ++ Effect.OpenEventW (appname ++ "CloseSplashScreenEvent") h :: rest ∧
      ∀ n h2, Effect.OpenEventW n h2 ∉ rest) ∧
    ∀ tick : DWORD,
      Impl.compute_close_event_name appname true tick = appname ++ "CloseSplashScreenEvent" := by
  refine ⟨fun v => ?_, ?_, fun tick => ?_⟩
  · exact CloseSplashScreen_trace appname (some v) reply err set_ok w
  · exact CloseSplashScreen_trace appname none reply err set_ok w
  · simp [Impl.compute_close_event_name]

namespace Launcher

/-- C6: when the wait set is the close event's handle followed by the child's
handle and the wait returns the index of the first, the iteration calls
`Close()` on the splash once, leaves `[child]` as wait set, changes neither the
launcher (so not the recorded exit code) nor the process, and does not return:
the loop goes on, and its next call is a wait on `[child]`. -/
theorem iteration_close_signal (s : LoopState) (ev : WaitStep) (ss : SplashScreenPriv)
    (hss : s.d.ss = some ss)
    (hnull : ss.close_event.IsNull = false)
    (hset : s.handles = [GetHANDLE ss.close_event, s.p.handle])
    (hne : GetHANDLE ss.close_event ≠ s.p.handle)
    (hres : ev.wait_result = WAIT_OBJECT_0 + 0) :
    (iteration s ev).1 = none ∧
    (iteration s ev).2.handles = [s.p.handle] ∧
    (iteration s ev).2.d = s.d ∧
    (iteration s ev).2.p = s.p ∧
    (iteration s ev).2.w.trace =
      s.w.trace ++ Effect.MsgWaitForMultipleObjects s.handles :: Effect.Close ::
        (if ss.window_handle = 0 then [] else [Effect.CloseWindow ss.window_handle]) ∧
    ∀ rest, loop s (ev :: rest) = loop (iteration s ev).2 rest ∧
      (iteration s ev).2.w.trace ++ [Effect.MsgWaitForMultipleObjects [s.p.handle]]
        <+: (loop s (ev :: rest)).w.trace := by
  have hit : iteration s ev =
      (none, { s with handles := [s.p.handle],
                      w := SplashScreen.Close ss
                        (s.w.emit (Effect.MsgWaitForMultipleObjects s.handles)) }) := by
    unfold iteration
    simp only [hres, hset, hss, hnull, WAIT_OBJECT_0, WAIT_FAILED, eraseAt]
    simp [hne]
  refine ⟨by rw [hit], by rw [hit], by rw [hit], by rw [hit], ?_, ?_⟩
  · rw [hit]
    simp only [SplashScreen.Close, World.emit]
    split_ifs <;> simp
  · intro rest
    have hl : loop s (ev :: rest) = loop (iteration s ev).2 rest := by
      rw [hit]
      exact loop_cons_none hit rest
    refine ⟨hl, ?_⟩
    rw [hl]
    have := loop_trace (iteration s ev).2 rest
    rw [hit] at this ⊢
    exact this

theorem iteration_close_signal_witness :
    (iteration Sample.started { wait_result := 0 }).1 = none ∧
    (iteration Sample.started { wait_result := 0 }).2.handles = [12] ∧
    (iteration Sample.started { wait_result := 0 }).2.w.trace =
      Sample.started.w.trace ++
        [Effect.MsgWaitForMultipleObjects [8, 12], Effect.Close, Effect.CloseWindow 77] :=
  ⟨(iteration_close_signal Sample.started { wait_result := 0 }
      { window_handle := 77,
        close_event := { d := some { name := "AppCloseSplashScreenEvent1000", handle := 8,
                                     created := true } } }
      (by decide) (by decide) (by decide) (by decide) (by decide)).1,
   (iteration_close_signal Sample.started { wait_result := 0 }
      { window_handle := 77,
        close_event := { d := some { name := "AppCloseSplashScreenEvent1000", handle := 8,
                                     created := true } } }
      (by decide) (by decide) (by decide) (by decide) (by decide)).2.1,
   (iteration_close_signal Sample.started { wait_result := 0 }
      { window_handle := 77,
        close_event := { d := some { name := "AppCloseSplashScreenEvent1000", handle := 8,
                                     created := true } } }
      (by decide) (by decide) (by decide) (by decide) (by decide)).2.2.2.2.1⟩

theorem drain_no_quit (q : List MSG) (w : World) (h : ∀ m ∈ q, m.message ≠ WM_QUIT) :
    drain w q = (false, [], { w with trace := w.trace ++ q.map Effect.DispatchMessage }) := by
  induction q generalizing w with
  | nil => simp [drain]
  | cons m rest ih =>
    have hm : m.message ≠ WM_QUIT := h m (List.mem_cons_self _ _)
    have hr : ∀ x ∈ rest, x.message ≠ WM_QUIT := fun x hx => h x (List.mem_cons_of_mem _ hx)
    unfold drain
    rw [if_neg hm, ih _ hr]
    simp [World.emit]

theorem drain_quit (before later : List MSG) (quit : MSG) (w : World)
    (h : ∀ m ∈ before, m.message ≠ WM_QUIT) (hq : quit.message = WM_QUIT) :
    drain w (before ++ quit :: later) =
      (true, later,
        { w with trace := w.trace ++
            (before.map Effect.DispatchMessage ++ [Effect.PostQuitMessage (toInt quit.wParam)]) })
    := by
  induction before generalizing w with
  | nil => simp [drain, hq, World.emit]
  | cons m rest ih =>
    have hm : m.message ≠ WM_QUIT := h m (List.mem_cons_self _ _)
    have hr : ∀ x ∈ rest, x.message ≠ WM_QUIT := fun x hx => h x (List.mem_cons_of_mem _ hx)
    simp only [List.cons_append]
    unfold drain
    rw [if_neg hm, ih _ hr]
    simp [World.emit]

theorem iteration_ui (s : LoopState) (ev : WaitStep) (hlen : s.handles.length ≤ 2)
    (hres : ev.wait_result = WAIT_OBJECT_0 + s.handles.length) :
    iteration s ev =
      (if (drain (s.w.emit (Effect.MsgWaitForMultipleObjects s.handles)) ev.queue).1
         then some Exit.quit else none,
       { s with
         w := (drain (s.w.emit (Effect.MsgWaitForMultipleObjects s.handles)) ev.queue).2.2 })
    := by
  have h1 : (WAIT_OBJECT_0 + s.handles.length) % 2 ^ 32 = WAIT_OBJECT_0 + s.handles.length := by
    simp only [WAIT_OBJECT_0, DWORD]
    omega
  have h2 : WAIT_OBJECT_0 + s.handles.length ≠ WAIT_FAILED := by
    simp only [WAIT_OBJECT_0, WAIT_FAILED, DWORD]
    omega
  unfold iteration
  simp only [hres, h1, h2, if_false, if_true]

/-- C7: when the wait reports a UI event (its result is the size of the wait
set), the iteration removes and dispatches the queued messages in order.  With
no `WM_QUIT` in the queue every message is dispatched once, the queue is left
empty, launcher, process and wait set are unchanged, and the loop waits again on
the same wait set.  With a `WM_QUIT` in it, the messages before the first one
are dispatched, `PostQuitMessage` is called with the `int` value of its
`wParam`, the later messages stay in the queue undispatched, and `Run` returns at
once: its last call is that `PostQuitMessage`, not a wait. -/
theorem iteration_ui_event (s : LoopState) (ev : WaitStep) (hlen : s.handles.length ≤ 2)
    (hres : ev.wait_result = WAIT_OBJECT_0 + s.handles.length) :
    ((∀ m ∈ ev.queue, m.message ≠ WM_QUIT) →
      (drain (s.w.emit (Effect.MsgWaitForMultipleObjects s.handles)) ev.queue).2.1 = [] ∧
      iteration s ev =
        (none, { s with w := { s.w with trace := (s.w.trace ++
          Effect.MsgWaitForMultipleObjects s.handles ::
            ev.queue.map Effect.DispatchMessage) } }) ∧
      ∀ rest, loop s (ev :: rest) = loop (iteration s ev).2 rest ∧
        (iteration s ev).2.w.trace ++ [Effect.MsgWaitForMultipleObjects s.handles]
          <+: (loop s (ev :: rest)).w.trace) ∧
    (∀ before later quit, ev.queue = before ++ quit :: later →
      (∀ m ∈ before, m.message ≠ WM_QUIT) → quit.message = WM_QUIT →
      (drain (s.w.emit (Effect.MsgWaitForMultipleObjects s.handles)) ev.queue).2.1 = later ∧
      iteration s ev =
        (some Exit.quit, { s with w := { s.w with trace := (s.w.trace ++
          Effect.MsgWaitForMultipleObjects s.handles ::
            (before.map Effect.DispatchMessage ++
              [Effect.PostQuitMessage (toInt quit.wParam)])) } }) ∧
      ∀ rest, loop s (ev :: rest) =
        { d := s.d,
          w := { s.w with trace := (s.w.trace ++
            Effect.MsgWaitForMultipleObjects s.handles ::
              (before.map Effect.DispatchMessage ++
                [Effect.PostQuitMessage (toInt quit.wParam)])) },
          exit := Exit.quit }) := by
  have hit := iteration_ui s ev hlen hres
  constructor
  · intro hq
    have hd := drain_no_quit ev.queue (s.w.emit (Effect.MsgWaitForMultipleObjects s.handles)) hq
    have hit2 : iteration s ev =
        (none, { s with w := { s.w with trace := (s.w.trace ++
          Effect.MsgWaitForMultipleObjects s.handles ::
            ev.queue.map Effect.DispatchMessage) } }) := by
      rw [hit, hd]
      simp [World.emit]
    refine ⟨by rw [hd], hit2, fun rest => ?_⟩
    have hl : loop s (ev :: rest) = loop (iteration s ev).2 rest := by
      rw [hit2]
      exact loop_cons_none hit2 rest
    refine ⟨hl, ?_⟩
    rw [hl]
    have := loop_trace (iteration s ev).2 rest
    rw [hit2] at this ⊢
    exact this
  · intro before later quit hqueue hb hq
    have hd := drain_quit before later quit
      (s.w.emit (Effect.MsgWaitForMultipleObjects s.handles)) hb hq
    rw [← hqueue] at hd
    have hit2 : iteration s ev =
        (some Exit.quit, { s with w := { s.w with trace := (s.w.trace ++
          Effect.MsgWaitForMultipleObjects s.handles ::
            (before.map Effect.DispatchMessage ++
              [Effect.PostQuitMessage (toInt quit.wParam)])) } }) := by
      rw [hit, hd]
      simp [World.emit]
    refine ⟨by rw [hd], hit2, fun rest => ?_⟩
    rw [loop_cons_some hit2 rest]

theorem iteration_ui_event_witness :
    (drain (Sample.splashClosed.w.emit
        (Effect.MsgWaitForMultipleObjects Sample.splashClosed.handles)) Sample.uiQuit.queue).2.1
      = [{ message := 275, wParam := 1 }] ∧
    (Run Sample.splashApp Sample.fs Sample.os [{ wait_result := 0 }, Sample.uiQuit] {}).exit
      = Exit.quit :=
  ⟨((iteration_ui_event Sample.splashClosed Sample.uiQuit (by decide) (by decide)).2
      [{ message := 15, wParam := 0 }] [{ message := 275, wParam := 1 }]
      { message := WM_QUIT, wParam := 7 } (by decide) (by decide) (by decide)).1,
   by decide⟩

end Launcher

namespace World

theorem extendsBy_refl (w : World) (ok : Effect → Bool) : w.extendsBy w ok :=
  ⟨[], by simp, by simp⟩

theorem extendsBy_trans {w w1 w2 : World} {ok : Effect → Bool}
    (h1 : w.extendsBy w1 ok) (h2 : w1.extendsBy w2 ok) : w.extendsBy w2 ok := by
  obtain ⟨a, ha, hoka⟩ := h1
  obtain ⟨b, hb, hokb⟩ := h2
  refine ⟨a ++ b, by rw [hb, ha, List.append_assoc], ?_⟩
  intro e he
  rcases List.mem_append.mp he with h | h
  · exact hoka e h
  · exact hokb e h

theorem extendsBy_mono {w w1 : World} {ok ok1 : Effect → Bool}
    (h : w.extendsBy w1 ok) (hm : ∀ e, ok e = true → ok1 e = true) : w.extendsBy w1 ok1 := by
  obtain ⟨a, ha, hoka⟩ := h
  exact ⟨a, ha, fun e he => hm e (hoka e he)⟩

theorem extendsBy_emit (w : World) (e : Effect) (ok : Effect → Bool) (h : ok e = true) :
    w.extendsBy (w.emit e) ok :=
  ⟨[e], rfl, by simpa using h⟩

theorem extendsBy_CreateEventW (w : World) (name : String) (reply : HANDLE) (err : DWORD) :
    w.extendsBy (w.CreateEventW name reply err).2 Effect.isQuiet := by
  unfold CreateEventW
  split_ifs <;>
    exact ⟨[_], rfl, by simp [Effect.isQuiet, Effect.isShow, Effect.isCreateProcess]⟩

theorem extendsBy_CloseHandle (w : World) (h : HANDLE) :
    w.extendsBy (w.CloseHandle h) Effect.isQuiet :=
  ⟨[_], rfl, by simp [Effect.isQuiet, Effect.isShow, Effect.isCreateProcess]⟩

end World

theorem Event.extendsBy_Close (e : Event) (w : World) :
    w.extendsBy (e.Close w).2 Effect.isQuiet := by
  unfold Event.Close
  split
  · exact World.extendsBy_CloseHandle _ _
  · exact World.extendsBy_refl _ _

theorem Event.extendsBy_moveAssign (a b : Event) (w : World) :
    w.extendsBy (Event.moveAssign a b w).2.2 Effect.isQuiet := by
  unfold Event.moveAssign
  simp only
  split_ifs
  · exact Event.extendsBy_Close _ _
  · exact World.extendsBy_refl _ _

theorem Event.extendsBy_new (name : String) (reply : HANDLE) (err : DWORD) (w : World) :
    w.extendsBy (Event.new name reply err w).2 Effect.isQuiet := by
  unfold Event.new
  simp only
  split_ifs <;> exact World.extendsBy_CreateEventW _ _ _ _

theorem Event.extendsBy_Create (name : String) (reply : HANDLE) (err : DWORD) (w : World) :
    w.extendsBy (Event.Create name reply err w).2 Effect.isQuiet := by
  have h1 := World.extendsBy_CreateEventW w name reply err
  have h2 := World.extendsBy_trans h1
    (World.extendsBy_CloseHandle (w.CreateEventW name reply err).2
      (w.CreateEventW name reply err).1)
  unfold Event.Create
  simp only
  split_ifs <;> first | exact h1 | exact h2

theorem SplashScreen.extendsBy_CreateCloseEvent (ss : SplashScreenPriv) (name : String)
    (reply : HANDLE) (err : DWORD) (w : World) :
    w.extendsBy (SplashScreen.CreateCloseEvent ss name reply err w).2.2 Effect.isQuiet := by
  unfold SplashScreen.CreateCloseEvent
  simp only
  split
  · dsimp only
    refine World.extendsBy_trans (Event.extendsBy_Create name reply err w) ?_
    exact Event.extendsBy_moveAssign _ _ _
  · exact Event.extendsBy_Create _ _ _ _

namespace Launcher

theorem guard_extends (d : LauncherPriv) (os : Replies) (w : World) :
    w.extendsBy (guard d os w).2.2 Effect.isQuiet := by
  unfold guard
  split_ifs
  · simp only
    split
    · exact Event.extendsBy_new _ _ _ _
    · split_ifs
      · dsimp only
        refine World.extendsBy_trans
          (Event.extendsBy_new (d.appname ++ "InstanceRunning") os.guard_handle
            os.guard_error w) ?_
        refine World.extendsBy_trans ?_ (World.extendsBy_emit _ _ _ (by rfl))
        exact Event.extendsBy_moveAssign _ _ _
      · dsimp only
        refine World.extendsBy_trans
          (Event.extendsBy_new (d.appname ++ "InstanceRunning") os.guard_handle
            os.guard_error w) ?_
        exact Event.extendsBy_moveAssign _ _ _
  · exact World.extendsBy_refl _ _

theorem splash_extends (d : LauncherPriv) (os : Replies) (w : World) :
    w.extendsBy (splash d os w).2.2 (fun e => !e.isCreateProcess) := by
  have hq : ∀ e : Effect, e.isQuiet = true → (!e.isCreateProcess) = true := by
    intro e he
    simp only [Effect.isQuiet, Bool.and_eq_true] at he
    exact he.2
  unfold splash
  split
  · exact World.extendsBy_refl _ _
  · rename_i ss hss
    have hc := World.extendsBy_mono
      (SplashScreen.extendsBy_CreateCloseEvent ss
        (Impl.compute_close_event_name d.appname d.single_instance os.tick)
        os.close_handle os.close_error w) hq
    simp only
    split_ifs
    · dsimp only
      refine World.extendsBy_trans hc ?_
      unfold SplashScreen.Show
      simp only
      split_ifs
      · exact World.extendsBy_trans (World.extendsBy_emit _ _ _ (by rfl))
          (World.extendsBy_emit _ _ _ (by rfl))
      · exact World.extendsBy_emit _ _ _ (by rfl)
    · dsimp only
      exact World.extendsBy_trans hc (World.extendsBy_emit _ _ _ (by rfl))

/-- When `CreateCloseEvent` returns false, `splash` registers no handle and
makes no call of `Show` or `CreateProcess`. -/
theorem splash_failed (d : LauncherPriv) (os : Replies) (w : World) (ss : SplashScreenPriv)
    (hss : d.ss = some ss)
    (hfail : (SplashScreen.CreateCloseEvent ss
      (Impl.compute_close_event_name d.appname d.single_instance os.tick)
      os.close_handle os.close_error w).1 = false) :
    (splash d os w).2.1 = [] ∧ w.extendsBy (splash d os w).2.2 Effect.isQuiet := by
  unfold splash
  simp only [hss, hfail]
  refine ⟨by simp, ?_⟩
  simp only [Bool.false_eq_true, if_false]
  exact World.extendsBy_trans
    (SplashScreen.extendsBy_CreateCloseEvent ss
      (Impl.compute_close_event_name d.appname d.single_instance os.tick)
      os.close_handle os.close_error w)
    (World.extendsBy_emit _ _ _ (by rfl))

theorem drain_extends (q : List MSG) (w : World) :
    w.extendsBy (drain w q).2.2 Effect.isQuiet := by
  induction q generalizing w with
  | nil => exact World.extendsBy_refl _ _
  | cons m rest ih =>
    unfold drain
    split_ifs
    · exact World.extendsBy_emit _ _ _ (by rfl)
    · exact World.extendsBy_trans (World.extendsBy_emit _ _ _ (by rfl)) (ih _)

theorem iteration_extends (s : LoopState) (ev : WaitStep) :
    s.w.extendsBy (iteration s ev).2.w Effect.isQuiet := by
  have h0 : s.w.extendsBy (s.w.emit (Effect.MsgWaitForMultipleObjects s.handles))
      Effect.isQuiet := World.extendsBy_emit _ _ _ (by rfl)
  have hd := drain_extends ev.queue (s.w.emit (Effect.MsgWaitForMultipleObjects s.handles))
  unfold iteration
  simp only
  split_ifs
  · exact World.extendsBy_trans h0 ⟨[_], rfl, by simp [Effect.isQuiet, Effect.isShow,
      Effect.isCreateProcess]⟩
  · exact World.extendsBy_trans h0 hd
  · exact World.extendsBy_trans h0 hd
  · exact World.extendsBy_trans h0 (World.extendsBy_emit _ _ _ (by rfl))
  · split
    · split_ifs
      · refine World.extendsBy_trans h0 ?_
        unfold SplashScreen.Close
        simp only
        split_ifs
        · exact World.extendsBy_emit _ _ _ (by rfl)
        · exact World.extendsBy_trans (World.extendsBy_emit _ _ _ (by rfl))
            (World.extendsBy_emit _ _ _ (by rfl))
      · exact h0
    · exact h0
  · exact h0

theorem loop_extends (s : LoopState) (waits : List WaitStep) :
    s.w.extendsBy (loop s waits).w Effect.isQuiet := by
  induction waits generalizing s with
  | nil => exact World.extendsBy_emit _ _ _ (by rfl)
  | cons ev rest ih =>
    have h1 := iteration_extends s ev
    rcases hit : iteration s ev with ⟨_ | e, s1⟩
    · rw [loop_cons_none hit]
      rw [hit] at h1
      exact World.extendsBy_trans h1 (ih s1)
    · rw [loop_cons_some hit]
      rw [hit] at h1
      exact h1

/-- The result of the set-up when the guard lets `Run` go on. -/
theorem setup_eq (d : LauncherPriv) (fs : Filesystem) (os : Replies) (w : World)
    (hg : (guard d os w).1 = none) :
    setup d fs os w =
      if os.process_handle = 0 then
        Sum.inl { d := (splash (guard d os w).2.1 os (guard d os w).2.2).1,
                  w := (splash (guard d os w).2.1 os (guard d os w).2.2).2.2.emit
                    (Effect.CreateProcess (exe_path d fs os)
                      (prepare (splash (guard d os w).2.1 os (guard d os w).2.2).1 fs
                        os).environment os.process_handle),
                  exit := Exit.not_started }
      else
        Sum.inr { d := (splash (guard d os w).2.1 os (guard d os w).2.2).1,
                  p := { prepare (splash (guard d os w).2.1 os (guard d os w).2.2).1 fs os with
                         handle := os.process_handle },
                  handles := (splash (guard d os w).2.1 os (guard d os w).2.2).2.1 ++
                    [os.process_handle],
                  w := ((splash (guard d os w).2.1 os (guard d os w).2.2).2.2.emit
                    (Effect.CreateProcess (exe_path d fs os)
                      (prepare (splash (guard d os w).2.1 os (guard d os w).2.2).1 fs
                        os).environment os.process_handle)).emit
                    (Effect.AllowSetForegroundWindow os.process_handle) } := by
  have hc := guard_config d os w
  have hs := splash_config (guard d os w).2.1 os (guard d os w).2.2
  have hpath : (prepare (splash (guard d os w).2.1 os (guard d os w).2.2).1 fs os).executable_path
      = exe_path d fs os := by
    rw [prepare_executable_path]
    exact exe_path_congr _ _ fs os (hs.1.trans hc.1) (hs.2.1.trans hc.2.1)
      (hs.2.2.1.trans hc.2.2.1)
  have hne : (prepare (splash (guard d os w).2.1 os (guard d os w).2.2).1 fs os).executable_path
      ≠ "" := by
    rw [hpath]
    exact exe_path_ne_empty d fs os
  unfold setup
  simp only [hg, Start_trace _ _ _ hne, hpath]

theorem iteration_exit (s : LoopState) (ev : WaitStep) :
    (iteration s ev).1 = none ∨ (iteration s ev).1 = some Exit.quit ∨
      (iteration s ev).1 = some Exit.process_exited := by
  unfold iteration
  simp only
  split_ifs <;> try simp
  split
  · split_ifs <;> simp
  · simp

theorem loop_exit (s : LoopState) (waits : List WaitStep) :
    (loop s waits).exit = Exit.blocked ∨ (loop s waits).exit = Exit.quit ∨
      (loop s waits).exit = Exit.process_exited := by
  induction waits generalizing s with
  | nil => exact Or.inl rfl
  | cons ev rest ih =>
    have h1 := iteration_exit s ev
    rcases hit : iteration s ev with ⟨_ | e, s1⟩
    · rw [loop_cons_none hit]
      exact ih s1
    · rw [loop_cons_some hit]
      rw [hit] at h1
      simp only [Option.some.injEq] at h1
      rcases h1 with h | h | h
      · simp at h
      · exact Or.inr (Or.inl h)
      · exact Or.inr (Or.inr h)

/-- C8: in a run with a splash supplied that gets to the splash set-up and in
which `CreateCloseEvent` returns false, `Run` calls `CreateProcess` once, with
the resolved path, and none of its other calls is a `Show`; `Run` is not left
by an exception; and when the process is created the loop is entered with the
child's handle as the only entry of the wait set. -/
theorem Run_without_close_event (d : LauncherPriv) (fs : Filesystem) (os : Replies)
    (waits : List WaitStep) (w : World) (ss : SplashScreenPriv)
    (hss : d.ss = some ss)
    (hg : (guard d os w).1 = none)
    (hfail : (SplashScreen.CreateCloseEvent ss
      (Impl.compute_close_event_name d.appname d.single_instance os.tick)
      os.close_handle os.close_error (guard d os w).2.2).1 = false) :
    (∃ before env later,
      (Run d fs os waits w).w.trace =
        w.trace ++ before ++
          Effect.CreateProcess (exe_path d fs os) env os.process_handle :: later ∧
      (∀ e ∈ before, e.isQuiet = true) ∧ (∀ e ∈ later, e.isQuiet = true)) ∧
    (∀ e, (Run d fs os waits w).exit ≠ Exit.thrown e) ∧
    (os.process_handle ≠ 0 →
      ∃ s, setup d fs os w = Sum.inr s ∧ s.handles = [s.p.handle] ∧
        s.p.handle = os.process_handle) := by
  have hc := guard_config d os w
  have hfail1 : (SplashScreen.CreateCloseEvent ss
      (Impl.compute_close_event_name (guard d os w).2.1.appname
        (guard d os w).2.1.single_instance os.tick)
      os.close_handle os.close_error (guard d os w).2.2).1 = false := by
    rw [hc.1, hc.2.2.2.1]
    exact hfail
  obtain ⟨hnil, a2, ha2, hq2⟩ :=
    splash_failed (guard d os w).2.1 os (guard d os w).2.2 ss (hc.2.2.2.2.trans hss) hfail1
  obtain ⟨a1, ha1, hq1⟩ := guard_extends d os w
  have hset := setup_eq d fs os w hg
  have hbefore : ∀ e ∈ a1 ++ a2, e.isQuiet = true := by
    intro e he
    rcases List.mem_append.mp he with h | h
    · exact hq1 e h
    · exact hq2 e h
  by_cases hp : os.process_handle = 0
  · rw [if_pos hp] at hset
    refine ⟨⟨a1 ++ a2, (prepare (splash (guard d os w).2.1 os (guard d os w).2.2).1 fs os).environment,
      [], ?_, hbefore, by simp⟩, ?_, fun h => absurd hp h⟩
    · simp only [Run, hset, World.emit, ha2, ha1, List.append_assoc]
    · intro e
      simp only [Run, hset]
      simp
  · rw [if_neg hp] at hset
    obtain ⟨a3, ha3, hq3⟩ := loop_extends
      { d := (splash (guard d os w).2.1 os (guard d os w).2.2).1,
        p := { prepare (splash (guard d os w).2.1 os (guard d os w).2.2).1 fs os with
               handle := os.process_handle },
        handles := (splash (guard d os w).2.1 os (guard d os w).2.2).2.1 ++ [os.process_handle],
        w := ((splash (guard d os w).2.1 os (guard d os w).2.2).2.2.emit
          (Effect.CreateProcess (exe_path d fs os)
            (prepare (splash (guard d os w).2.1 os (guard d os w).2.2).1 fs
              os).environment os.process_handle)).emit
          (Effect.AllowSetForegroundWindow os.process_handle) } waits
    refine ⟨⟨a1 ++ a2, (prepare (splash (guard d os w).2.1 os (guard d os w).2.2).1 fs os).environment,
      Effect.AllowSetForegroundWindow os.process_handle :: a3, ?_,
      hbefore, ?_⟩, ?_, fun _ => ⟨_, hset, ?_, rfl⟩⟩
    · simp only [Run, hset, ha3]
      simp only [World.emit, ha2, ha1, List.append_assoc, List.cons_append, List.nil_append]
    · intro e he
      rcases List.mem_cons.mp he with h | h
      · rw [h]
        rfl
      · exact hq3 e h
    · intro e
      simp only [Run, hset]
      rcases loop_exit _ waits with h | h | h <;> rw [h] <;> simp
    · simp only [hnil, List.nil_append]

theorem Run_without_close_event_witness :
    (SplashScreen.CreateCloseEvent {} "AppCloseSplashScreenEvent1000" 8 0 Sample.stale).1 = false ∧
    (∀ e, (Run Sample.splashApp Sample.fs Sample.os [] Sample.stale).exit ≠ Exit.thrown e) ∧
    ∃ s, setup Sample.splashApp Sample.fs Sample.os Sample.stale = Sum.inr s ∧
      s.handles = [s.p.handle] ∧ s.p.handle = 12 :=
  ⟨by decide,
   (Run_without_close_event Sample.splashApp Sample.fs Sample.os [] Sample.stale {}
      (by decide) (by decide) (by decide)).2.1,
   (Run_without_close_event Sample.splashApp Sample.fs Sample.os [] Sample.stale {}
      (by decide) (by decide) (by decide)).2.2 (by decide)⟩

theorem quiet_not_createProcess {e : Effect} (h : e.isQuiet = true) :
    e.isCreateProcess = false := by
  simp only [Effect.isQuiet, Bool.and_eq_true, Bool.not_eq_true'] at h
  exact h.2

/-- C9: the path `Run` resolves is the explicit executable path when that is not
empty, and otherwise the parent path of the launcher's own executable with
`executable_name + ".exe"` appended when the executable name is not empty, and
`appname + ".exe"` when it is.  Every `CreateProcess` call `Run` makes carries
that path, and `Run` makes the call whenever the guard lets it go on. -/
theorem Run_executable_path (d : LauncherPriv) (fs : Filesystem) (os : Replies)
    (waits : List WaitStep) (w : World) :
    exe_path d fs os =
      (if d.executable_path ≠ "" then d.executable_path
       else if d.executable_name ≠ "" then
         fs.append (fs.parent_path os.module_path) (d.executable_name ++ ".exe")
       else fs.append (fs.parent_path os.module_path) (d.appname ++ ".exe")) ∧
    (∃ added, (Run d fs os waits w).w.trace = w.trace ++ added ∧
      ∀ path env h, Effect.CreateProcess path env h ∈ added →
        path = exe_path d fs os ∧ h = os.process_handle) ∧
    ((guard d os w).1 = none →
      ∃ env, Effect.CreateProcess (exe_path d fs os) env os.process_handle
        ∈ (Run d fs os waits w).w.trace) := by
  refine ⟨?_, ?_, ?_⟩
  · unfold exe_path
    by_cases h1 : d.executable_path = "" <;> by_cases h2 : d.executable_name = "" <;>
      simp [h1, h2]
  · obtain ⟨a1, ha1, hq1⟩ := guard_extends d os w
    cases hg : (guard d os w).1 with
    | some e =>
      refine ⟨a1, ?_, ?_⟩
      · simp only [Run, setup, hg, ha1]
      · intro path env h hmem
        have := quiet_not_createProcess (hq1 _ hmem)
        simp [Effect.isCreateProcess] at this
    | none =>
      obtain ⟨a2, ha2, hq2⟩ := splash_extends (guard d os w).2.1 os (guard d os w).2.2
      have hset := setup_eq d fs os w hg
      by_cases hp : os.process_handle = 0
      · rw [if_pos hp] at hset
        refine ⟨a1 ++ a2 ++ [Effect.CreateProcess (exe_path d fs os)
          (prepare (splash (guard d os w).2.1 os (guard d os w).2.2).1 fs os).environment
          os.process_handle], ?_, ?_⟩
        · simp only [Run, hset, World.emit, ha2, ha1, List.append_assoc]
        · intro path env h hmem
          simp only [List.mem_append, List.mem_singleton] at hmem
          rcases hmem with (hm | hm) | hm
          · have := quiet_not_createProcess (hq1 _ hm)
            simp [Effect.isCreateProcess] at this
          · have := hq2 _ hm
            simp [Effect.isCreateProcess] at this
          · simp only [Effect.CreateProcess.injEq] at hm
            exact ⟨hm.1, hm.2.2⟩
      · rw [if_neg hp] at hset
        obtain ⟨a3, ha3, hq3⟩ := loop_extends
          { d := (splash (guard d os w).2.1 os (guard d os w).2.2).1,
            p := { prepare (splash (guard d os w).2.1 os (guard d os w).2.2).1 fs os with
                   handle := os.process_handle },
            handles := (splash (guard d os w).2.1 os (guard d os w).2.2).2.1 ++
              [os.process_handle],
            w := ((splash (guard d os w).2.1 os (guard d os w).2.2).2.2.emit
              (Effect.CreateProcess (exe_path d fs os)
                (prepare (splash (guard d os w).2.1 os (guard d os w).2.2).1 fs
                  os).environment os.process_handle)).emit
              (Effect.AllowSetForegroundWindow os.process_handle) } waits
        refine ⟨a1 ++ a2 ++ Effect.CreateProcess (exe_path d fs os)
          (prepare (splash (guard d os w).2.1 os (guard d os w).2.2).1 fs os).environment
          os.process_handle :: Effect.AllowSetForegroundWindow os.process_handle :: a3, ?_, ?_⟩
        · simp only [Run, hset, ha3]
          simp only [World.emit, ha2, ha1, List.append_assoc, List.cons_append,
            List.nil_append]
        · intro path env h hmem
          simp only [List.mem_append, List.mem_cons] at hmem
          rcases hmem with (hm | hm) | hm | hm | hm
          · have := quiet_not_createProcess (hq1 _ hm)
            simp [Effect.isCreateProcess] at this
          · have := hq2 _ hm
            simp [Effect.isCreateProcess] at this
          · simp only [Effect.CreateProcess.injEq] at hm
            exact ⟨hm.1, hm.2.2⟩
          · simp at hm
          · have := quiet_not_createProcess (hq3 _ hm)
            simp [Effect.isCreateProcess] at this
  · intro hg
    refine ⟨(prepare (splash (guard d os w).2.1 os (guard d os w).2.2).1 fs os).environment, ?_⟩
    apply (Run_trace_of_setup d fs os waits w).subset
    rw [setup_trace d fs os w hg]
    simp

theorem Run_executable_path_witness :
    ∃ env, Effect.CreateProcess "C:/bin/kid.exe" env 12
      ∈ (Run Sample.app Sample.fs Sample.os [] {}).w.trace :=
  (Run_executable_path Sample.app Sample.fs Sample.os [] {}).2.2 (by decide)

end Launcher

/-- C10: whenever `CreateEventW` returns a handle, the constructor `Event(name)`
does not throw; the event it yields is not null, holds that handle, has
`GetName() = name`, and has `Created()` true exactly when no event of that name
existed before the call. -/
theorem Event_new_of_handle (name : String) (reply : HANDLE) (err : DWORD) (w : World)
    (h : reply ≠ 0) :
    ∃ e, (Event.new name reply err w).1 = Except.ok e ∧
      e.IsNull = false ∧ e.GetName = name ∧ GetHANDLE e = reply ∧
      (e.Created = true ↔ w.eventExists name = false) := by
  cases hex : w.eventExists name <;>
    simp [Event.new, World.CreateEventW, h, hex, Event.IsNull, Event.GetName, GetHANDLE,
      Event.Created, ERROR_ALREADY_EXISTS]

theorem Event_new_of_handle_witness :
    ∃ e, (Event.new "AppInstanceRunning" 4 0 Sample.taken).1 = Except.ok e ∧
      e.IsNull = false ∧ e.GetName = "AppInstanceRunning" ∧ GetHANDLE e = 4 ∧
      (e.Created = true ↔ Sample.taken.eventExists "AppInstanceRunning" = false) :=
  Event_new_of_handle "AppInstanceRunning" 4 0 Sample.taken (by decide)

/-- C11, as stated, fails: an event named `AppInstanceRunning` exists, the
system returns handle 4 for it, and `Event::Create` throws (the message is that
of error 183, `ERROR_ALREADY_EXISTS`) instead of returning an event. -/
theorem Event_Create_existing_throws :
    Sample.taken.eventExists "AppInstanceRunning" = true ∧
    (Event.Create "AppInstanceRunning" 4 0 Sample.taken).1
      = Except.error (Exception.new { m_value := 183 }) :=
  ⟨by decide, rfl⟩

/-- C11 (amended): for a name for which an event already exists,
`Event::Create(name)` throws an `Exception` and returns no event, and the
handle `CreateEventW` may have returned is closed again, so that the handles
this process holds are those it held before.  No event `Event::Create` returns
has `Created()` false. -/
theorem Event_Create_existing (name : String) (reply : HANDLE) (err : DWORD) (w : World)
    (hex : w.eventExists name = true) :
    (∃ ex, (Event.Create name reply err w).1 = Except.error ex) ∧
    (Event.Create name reply err w).2.events = w.events ∧
    ∀ name1 reply1 err1 w1 e,
      (Event.Create name1 reply1 err1 w1).1 = Except.ok e → e.Created = true := by
  refine ⟨?_, ?_, ?_⟩
  · by_cases hr : reply = 0 <;>
      simp [Event.Create, World.CreateEventW, hr, hex, ERROR_ALREADY_EXISTS]
  · by_cases hr : reply = 0 <;>
      simp [Event.Create, World.CreateEventW, hr, hex, ERROR_ALREADY_EXISTS,
        World.CloseHandle, World.dropHandle]
  · intro name1 reply1 err1 w1 e h
    by_cases hr : reply1 = 0 <;> cases hx : w1.eventExists name1 <;>
      simp [Event.Create, World.CreateEventW, hr, hx, ERROR_ALREADY_EXISTS] at h
    subst h
    rfl

theorem Event_Create_existing_witness :
    (∃ ex, (Event.Create "AppInstanceRunning" 4 0 Sample.taken).1 = Except.error ex) ∧
    (Event.Create "AppInstanceRunning" 4 0 Sample.taken).2.events = [] :=
  ⟨(Event_Create_existing "AppInstanceRunning" 4 0 Sample.taken (by decide)).1,
   (Event_Create_existing "AppInstanceRunning" 4 0 Sample.taken (by decide)).2.1⟩

/-- On a splash screen that holds no close event, `CreateCloseEvent` returns
true exactly when the call created the event: the system returned a handle and
no event of that name existed. -/
theorem CreateCloseEvent_fresh (ss : SplashScreenPriv) (name : String) (reply : HANDLE)
    (err : DWORD) (w : World) (hnull : ss.close_event.IsNull = true) :
    (SplashScreen.CreateCloseEvent ss name reply err w).1 = true ↔
      (reply ≠ 0 ∧ w.eventExists name = false) := by
  have hd : ss.close_event.d = none := by
    simpa [Event.IsNull] using hnull
  by_cases hr : reply = 0 <;> cases hx : w.eventExists name <;>
    simp [SplashScreen.CreateCloseEvent, Event.Create, World.CreateEventW, hr, hx,
      ERROR_ALREADY_EXISTS, Event.moveAssign, Event.IsNull, hd]

/-- C12 at a splash screen that already holds a close event: a first call of
`CreateCloseEvent` creates `AppCloseSplashScreenEvent`; a second call with the
same name finds the event existing, closes the handle it got and creates
nothing, the splash screen keeps the event of the first call, and yet the
second call returns true. -/
theorem CreateCloseEvent_again_returns_true :
    Sample.withCloseEvent.1 = true ∧
    Sample.withCloseEvent.2.2.eventExists "AppCloseSplashScreenEvent" = true ∧
    Sample.withCloseEventAgain.1 = true ∧
    Sample.withCloseEventAgain.2.1 = Sample.withCloseEvent.2.1 ∧
    Sample.withCloseEventAgain.2.2.trace =
      [Effect.CreateEventW "AppCloseSplashScreenEvent" 8,
       Effect.CreateEventW "AppCloseSplashScreenEvent" 16, Effect.CloseHandle 16] := by
  decide

/-- C13: with single-instance mode on, `compute_close_event_name` gives
`appname + "CloseSplashScreenEvent"` at any two values of the tick counter, so
the two results are equal. -/
theorem compute_close_event_name_single (appname : String) (t1 t2 : DWORD) :
    Impl.compute_close_event_name appname true t1 = appname ++ "CloseSplashScreenEvent" ∧
    Impl.compute_close_event_name appname true t2 = appname ++ "CloseSplashScreenEvent" ∧
    Impl.compute_close_event_name appname true t1 =
      Impl.compute_close_event_name appname true t2 := by
  simp [Impl.compute_close_event_name]

theorem digitChar_value : ∀ k, k < 10 → (Nat.digitChar k).toNat - 48 = k := by
  decide

theorem decimalValue_append_singleton (xs : List Char) (c : Char) :
    decimalValue (xs ++ [c]) = decimalValue xs * 10 + (c.toNat - 48) := by
  simp [decimalValue, List.foldl_append]

theorem toDigitsCore_decimalValue (fuel : Nat) :
    ∀ n ds, n < fuel →
      ∃ xs, Nat.toDigitsCore 10 fuel n ds = xs ++ ds ∧ decimalValue xs = n := by
  induction fuel with
  | zero => intro n ds h; omega
  | succ fuel ih =>
    intro n ds h
    have hd := digitChar_value (n % 10) (Nat.mod_lt _ (by decide))
    unfold Nat.toDigitsCore
    by_cases h0 : n / 10 = 0
    · refine ⟨[Nat.digitChar (n % 10)], by simp [h0], ?_⟩
      simp only [decimalValue, List.foldl_cons, List.foldl_nil, hd]
      omega
    · obtain ⟨xs, hxs, hv⟩ := ih (n / 10) (Nat.digitChar (n % 10) :: ds) (by omega)
      refine ⟨xs ++ [Nat.digitChar (n % 10)], ?_, ?_⟩
      · simp only [h0, if_false, hxs, List.append_assoc, List.singleton_append]
      · rw [decimalValue_append_singleton, hv, hd]
        omega

theorem decimalValue_repr (n : Nat) : decimalValue (Nat.repr n).data = n := by
  obtain ⟨xs, hxs, hv⟩ := toDigitsCore_decimalValue (n + 1) n [] (by omega)
  simp only [Nat.repr, Nat.toDigits, List.asString, hxs, List.append_nil]
  exact hv

theorem repr_injective {a b : Nat} (h : Nat.repr a = Nat.repr b) : a = b := by
  have := congrArg (fun s => decimalValue s.data) h
  simpa [decimalValue_repr] using this

theorem append_left_cancel (a b c : String) (h : a ++ b = a ++ c) : b = c := by
  apply String.ext
  have hd := congrArg String.data h
  simp only [String.data_append] at hd
  exact List.append_cancel_left hd

/-- C14: with single-instance mode off, `compute_close_event_name` gives
different names for the same `appname` at two different values of the tick
counter. -/
theorem compute_close_event_name_ticks (appname : String) (t1 t2 : DWORD) (h : t1 ≠ t2) :
    Impl.compute_close_event_name appname false t1 ≠
      Impl.compute_close_event_name appname false t2 := by
  intro hc
  simp only [Impl.compute_close_event_name, Bool.not_false, if_true] at hc
  exact h (repr_injective (append_left_cancel _ _ _ hc))

theorem compute_close_event_name_ticks_witness :
    Impl.compute_close_event_name "App" false 4294967295 ≠
      Impl.compute_close_event_name "App" false 0 :=
  compute_close_event_name_ticks "App" 4294967295 0 (by decide)

theorem Event.Close_null (e : Event) (w : World) (h : e.d = none) : e.Close w = (e, w) := by
  simp [Event.Close, h]

theorem Event.closeTimes_null (n : Nat) (e : Event) (w : World) (h : e.d = none) :
    Event.closeTimes n e w = (e, w) := by
  induction n with
  | zero => rfl
  | succ n ih => simp only [Event.closeTimes, Event.Close_null e w h, ih]

/-- C15: after `Close()` the event is null, and a second `Close()` changes
neither the event nor the world.  Whatever the number of `Close()` calls before
the destructor runs, the calls made are exactly one `CloseHandle` of the
event's handle when the event was not null, and none when it was. -/
theorem Event_Close_once (e : Event) (w : World) :
    (e.Close w).1.IsNull = true ∧
    (e.Close w).1.Close (e.Close w).2 = e.Close w ∧
    ∀ n : Nat,
      (Event.destroy (Event.closeTimes n e w).1 (Event.closeTimes n e w).2).trace =
        w.trace ++ (e.d.toList.map fun p => Effect.CloseHandle p.handle) := by
  cases hd : e.d with
  | none =>
    refine ⟨by simp [Event.Close, hd, Event.IsNull], by simp [Event.Close, hd], fun n => ?_⟩
    rw [Event.closeTimes_null n e w hd]
    simp [Event.destroy, Event.Close, hd]
  | some p =>
    refine ⟨by simp [Event.Close, hd, Event.IsNull], by simp [Event.Close, hd], fun n => ?_⟩
    cases n with
    | zero => simp [Event.closeTimes, Event.destroy, Event.Close, hd, World.CloseHandle]
    | succ n =>
      simp only [Event.closeTimes]
      have hc : e.Close w = ({ d := none }, w.CloseHandle p.handle) := by
        simp [Event.Close, hd]
      rw [hc, Event.closeTimes_null n _ _ rfl]
      simp [Event.destroy, Event.Close, World.CloseHandle]

/-- C16, as stated, fails: a process that was started (handle 12) and whose
path was then set to the empty string keeps the handle 12 through `Start()`;
the handle is not null. -/
theorem Start_empty_path_keeps_handle :
    Sample.restarted.executable_path = "" ∧
    (Process.Start Sample.restarted 16 {}).1.handle = 12 ∧
    (Process.Start Sample.restarted 16 {}).1.handle ≠ 0 := by
  decide

/-- C16 (amended): on a process whose executable path is empty, `Start()` makes
no call (it creates no process), returns normally, and leaves the process as it
was: handle, path and environment are unchanged, so a null handle stays
null. -/
theorem Start_empty_path (p : ProcessPriv) (reply : HANDLE) (w : World)
    (h : p.executable_path = "") :
    Process.Start p reply w = (p, w) ∧
    (Process.Start p reply w).1.handle = p.handle ∧
    (Process.Start p reply w).1.executable_path = p.executable_path ∧
    (Process.Start p reply w).1.environment = p.environment ∧
    (Process.Start p reply w).2.trace = w.trace ∧
    (p.handle = 0 → (Process.Start p reply w).1.handle = 0) := by
  have hs : Process.Start p reply w = (p, w) := by
    simp [Process.Start, h]
  rw [hs]
  exact ⟨rfl, rfl, rfl, rfl, rfl, fun h0 => h0⟩

theorem Start_empty_path_witness :
    Process.Start {} 16 {} = ({}, {}) ∧ (Process.Start {} 16 {}).1.handle = 0 :=
  ⟨(Start_empty_path {} 16 {} rfl).1, (Start_empty_path {} 16 {} rfl).2.2.2.2.2 rfl⟩

/-- C17 at the error code 5: the exception built from it reports the error code
0 through `GetErrorCode()`, not 5, because the constructor does not initialise
`m_err`; only the message is that of code 5. -/
theorem Exception_GetErrorCode_lost :
    (Exception.new { m_value := 5 }).GetErrorCode = { m_value := 0 } ∧
    (Exception.new { m_value := 5 }).GetErrorCode ≠ { m_value := 5 } ∧
    (Exception.new { m_value := 5 }).what_code = 5 := by
  decide

/-- Whatever the error code, `GetErrorCode()` of the exception built from it is
the default error code. -/
theorem Exception_GetErrorCode_default (e : ErrorCode) :
    (Exception.new e).GetErrorCode = {} := rfl

theorem push_eq_append (s : String) : s.push '=' = s ++ "=" := by
  apply String.ext
  simp [String.data_append]

theorem foldl_push_back (f : String × String → String) (l : List (String × String))
    (acc : List String) :
    l.foldl (fun r p => r ++ [f p]) acc = acc ++ l.map f := by
  induction l generalizing acc with
  | nil => simp
  | cons x rest ih => simp [ih]

/-- C19: `ToStringList()` returns the strings `name + "=" + value` of the
variables, one for each variable and in the order of the map; a variable whose
value is empty gives `name + "="`. -/
theorem ToStringList_eq (e : ProcessEnvironment) :
    e.ToStringList = e.m_vars.map (fun p => p.1 ++ "=" ++ p.2) ∧
    e.ToStringList.length = e.m_vars.length ∧
    ∀ name : String,
      (ProcessEnvironment.Insert {} name "").ToStringList = [name ++ "="] := by
  have h : e.ToStringList = e.m_vars.map (fun p => p.1 ++ "=" ++ p.2) := by
    unfold ProcessEnvironment.ToStringList
    rw [foldl_push_back (fun p => p.1.push '=' ++ p.2)]
    simp [push_eq_append]
  refine ⟨h, by rw [h, List.length_map], fun name => ?_⟩
  simp [ProcessEnvironment.ToStringList, ProcessEnvironment.Insert, mapAssign, push_eq_append]

/-- On a key that is not predefined, `Close()` calls `RegCloseKey` and leaves
the key null. -/
theorem RegistryKey_Close_plain (p : RegistryKeyPriv) (w : World) (h : p.predefined = false) :
    (RegistryKey.Close { d := some p } w).1.IsNull = true ∧
    (RegistryKey.Close { d := some p } w).2.trace = w.trace ++ [Effect.RegCloseKey p.hkey] := by
  simp [RegistryKey.Close, h, RegistryKey.IsNull, World.emit]

/-- The guard `!d->predefined` of `Close()` on the constant
`Registry::HKEY_CURRENT_USER`: no call is made and the key is left as it was.
The constants of `Registry` are `const` objects, so the only call of `Close()`
they ever receive is the one of their destructor. -/
theorem RegistryKey_Close_predefined :
    CreatePredefinedRegKey "HKEY_CURRENT_USER" = some Registry.HKEY_CURRENT_USER ∧
    RegistryKey.Close Registry.HKEY_CURRENT_USER {} = (Registry.HKEY_CURRENT_USER, {}) ∧
    (RegistryKey.Close Registry.HKEY_CURRENT_USER {}).1.IsNull = false := by
  decide

namespace Launcher

/-- The state after an iteration whose wait fails. -/
theorem iteration_failed_eq (s : LoopState) (ev : WaitStep)
    (hres : ev.wait_result = WAIT_FAILED) :
    iteration s ev =
      (none, { s with w := { s.w.emit (Effect.MsgWaitForMultipleObjects s.handles) with
                             last_error := ev.last_error }.emit (Effect.print "wait failed") })
      := by
  unfold iteration
  simp [hres, WAIT_FAILED]

/-- C23: an iteration whose wait fails (`WAIT_FAILED`) only records the failed
wait and prints a line: launcher (with the splash state and the recorded exit
code), process and wait set are unchanged, the iteration does not make `Run`
return, and the next call of the loop is a wait on the same wait set. -/
theorem iteration_wait_failed (s : LoopState) (ev : WaitStep)
    (hres : ev.wait_result = WAIT_FAILED) :
    (iteration s ev).1 = none ∧
    (iteration s ev).2.handles = s.handles ∧
    (iteration s ev).2.d = s.d ∧
    (iteration s ev).2.p = s.p ∧
    (iteration s ev).2.w.trace =
      s.w.trace ++ [Effect.MsgWaitForMultipleObjects s.handles, Effect.print "wait failed"] ∧
    ∀ rest, loop s (ev :: rest) = loop (iteration s ev).2 rest ∧
      (iteration s ev).2.w.trace ++ [Effect.MsgWaitForMultipleObjects s.handles]
        <+: (loop s (ev :: rest)).w.trace := by
  have hit := iteration_failed_eq s ev hres
  refine ⟨by rw [hit], by rw [hit], by rw [hit], by rw [hit], ?_, ?_⟩
  · rw [hit]
    simp [World.emit]
  · intro rest
    have hl : loop s (ev :: rest) = loop (iteration s ev).2 rest := by
      rw [hit]
      exact loop_cons_none hit rest
    refine ⟨hl, ?_⟩
    rw [hl]
    have := loop_trace (iteration s ev).2 rest
    rw [hit] at this ⊢
    exact this

theorem iteration_wait_failed_witness :
    (iteration Sample.started { wait_result := 4294967295, last_error := 6 }).1 = none ∧
    (iteration Sample.started { wait_result := 4294967295, last_error := 6 }).2.handles
      = [8, 12] :=
  ⟨(iteration_wait_failed Sample.started { wait_result := 4294967295, last_error := 6 }
      (by decide)).1,
   (iteration_wait_failed Sample.started { wait_result := 4294967295, last_error := 6 }
      (by decide)).2.1⟩

/-- C28: in single-instance mode, when `CreateEventW` returns no handle for the
guard, `Run` does not return: it is left by the exception the `Event`
constructor throws, built from the last error.  The only call `Run` made is
that `CreateEventW` (no `Show`, no `CreateProcess`), and the launcher is as it
was. -/
theorem Run_guard_failure_throws (d : LauncherPriv) (fs : Filesystem) (os : Replies)
    (waits : List WaitStep) (w : World)
    (hsi : d.single_instance = true) (hnull : os.guard_handle = 0) :
    (Run d fs os waits w).exit =
      Exit.thrown (Exception.new { m_value := toInt os.guard_error }) ∧
    (Run d fs os waits w).w.trace =
      w.trace ++ [Effect.CreateEventW (d.appname ++ "InstanceRunning") 0] ∧
    (Run d fs os waits w).d = d := by
  simp [Run, setup, guard, hsi, Event.new, World.CreateEventW, hnull, GetLastError]

theorem Run_guard_failure_throws_witness :
    (Run Sample.app Sample.fs Sample.osDenied [] {}).exit =
      Exit.thrown (Exception.new { m_value := 5 }) ∧
    (Run Sample.app Sample.fs Sample.osDenied [] {}).w.trace =
      [Effect.CreateEventW "AppInstanceRunning" 0] :=
  ⟨(Run_guard_failure_throws Sample.app Sample.fs Sample.osDenied [] {}
      (by decide) (by decide)).1,
   (Run_guard_failure_throws Sample.app Sample.fs Sample.osDenied [] {}
      (by decide) (by decide)).2.1⟩

theorem stateAfter_induction (P : LoopState → Prop)
    (hstep : ∀ s ev, P s → P (iteration s ev).2) {s s1 : LoopState} {pre : List WaitStep}
    (h : stateAfter s pre = some s1) (hs : P s) : P s1 := by
  induction pre generalizing s with
  | nil =>
    simp only [stateAfter, Option.some.injEq] at h
    rw [← h]
    exact hs
  | cons ev rest ih =>
    rcases hit : iteration s ev with ⟨_ | e, s2⟩
    · simp only [stateAfter, hit] at h
      have h2 := hstep s ev hs
      rw [hit] at h2
      exact ih h h2
    · simp [stateAfter, hit] at h

theorem iteration_ss (s : LoopState) (ev : WaitStep) : (iteration s ev).2.d.ss = s.d.ss := by
  unfold iteration
  simp only
  split_ifs <;> try simp
  split
  · split_ifs <;> simp
  · simp

/-- An iteration keeps the wait set, or erases from it an entry that is not the
child's handle. -/
theorem iteration_handles (s : LoopState) (ev : WaitStep) :
    (iteration s ev).2.handles = s.handles ∨
      ∃ idx, idx < s.handles.length ∧ s.handles.getD idx 0 ≠ s.p.handle ∧
        (iteration s ev).2.handles = s.handles.eraseIdx idx := by
  unfold iteration
  simp only
  split_ifs with c1 c2 c3 c4 c5
  all_goals first
    | exact Or.inl rfl
    | skip
  split
  · split_ifs
    · exact Or.inr ⟨_, by assumption, by assumption, rfl⟩
    · exact Or.inl rfl
  · exact Or.inl rfl

/-- An iteration on a wait set that is the child's handle alone leaves it so. -/
theorem iteration_child_only (s : LoopState) (ev : WaitStep)
    (h : s.handles = [s.p.handle]) : (iteration s ev).2.handles = [s.p.handle] := by
  rcases iteration_handles s ev with k | ⟨idx, hlt, hne, _⟩
  · rw [k, h]
  · exfalso
    rw [h] at hlt hne
    simp only [List.length_singleton, Nat.lt_one_iff] at hlt
    rw [hlt] at hne
    exact hne rfl

/-- An iteration keeps the shape of the wait set, and either keeps the wait set
or reduces it to the child's handle. -/
theorem iteration_waitSetOk (s : LoopState) (ev : WaitStep) (h : waitSetOk s) :
    waitSetOk (iteration s ev).2 ∧
    ((iteration s ev).2.handles = s.handles ∨ (iteration s ev).2.handles = [s.p.handle]) := by
  have hp := iteration_p s ev
  have hss := iteration_ss s ev
  rcases h with h | ⟨ss, h1, h2⟩
  · have hc := iteration_child_only s ev h
    exact ⟨Or.inl (by rw [hc, hp]), Or.inr hc⟩
  · have key : (iteration s ev).2.handles = s.handles ∨
        (iteration s ev).2.handles = [s.p.handle] := by
      rcases iteration_handles s ev with k | ⟨idx, hlt, hne, k⟩
      · exact Or.inl k
      · right
        rw [k]
        rw [h2] at hlt hne ⊢
        simp only [List.length_cons, List.length_singleton, List.length_nil] at hlt
        have hcases : idx = 0 ∨ idx = 1 := by omega
        rcases hcases with h0 | h0
        · rw [h0]
          rfl
        · rw [h0] at hne
          exact absurd rfl hne
    refine ⟨?_, key⟩
    rcases key with k | k
    · exact Or.inr ⟨ss, by rw [hss]; exact h1, by rw [k, hp]; exact h2⟩
    · exact Or.inl (by rw [k, hp])

theorem splash_handles_shape (d : LauncherPriv) (os : Replies) (w : World) :
    (splash d os w).2.1 = [] ∨
      ∃ ss, (splash d os w).1.ss = some ss ∧
        (splash d os w).2.1 = [GetHANDLE ss.close_event] := by
  unfold splash
  split
  · exact Or.inl rfl
  · simp only
    split_ifs
    · right
      exact ⟨_, rfl, rfl⟩
    · exact Or.inl rfl

theorem setup_waitSetOk {d : LauncherPriv} {fs : Filesystem} {os : Replies} {w : World}
    {s : LoopState} (h : setup d fs os w = Sum.inr s) : waitSetOk s := by
  unfold setup at h
  simp only at h
  split at h
  · simp at h
  · split_ifs at h
    simp only [Sum.inr.injEq] at h
    subst h
    rcases splash_handles_shape (guard d os w).2.1 os (guard d os w).2.2 with hs | ⟨ss, h1, h2⟩
    · left
      simp [hs]
    · right
      exact ⟨ss, h1, by simp [h2, SplashScreen.GetCloseEvent]⟩

/-- C21: every state the wait loop reaches has the child's handle alone, or the
close event's handle followed by the child's handle, as wait set, for the
process of the start.  From such a state an iteration either keeps the wait set
or reduces it to the child's handle (nothing is added, the child's handle is
never removed), and once the wait set is the child's handle alone it is so in
every later state of the run. -/
theorem wait_set_invariant (d : LauncherPriv) (fs : Filesystem) (os : Replies) (w : World)
    (s0 s : LoopState) (pre : List WaitStep)
    (hstart : setup d fs os w = Sum.inr s0) (hpre : stateAfter s0 pre = some s) :
    s.p = s0.p ∧ waitSetOk s ∧ s.p.handle ∈ s.handles ∧
    (∀ ev, (iteration s ev).2.handles = s.handles ∨
      (iteration s ev).2.handles = [s.p.handle]) ∧
    (s.handles = [s.p.handle] →
      ∀ later s1, stateAfter s later = some s1 → s1.handles = [s1.p.handle]) := by
  have hp : s.p = s0.p :=
    stateAfter_induction (fun x => x.p = s0.p)
      (fun x ev hx => (iteration_p x ev).trans hx) hpre rfl
  have hok : waitSetOk s :=
    stateAfter_induction waitSetOk (fun x ev hx => (iteration_waitSetOk x ev hx).1) hpre
      (setup_waitSetOk hstart)
  refine ⟨hp, hok, ?_, fun ev => (iteration_waitSetOk s ev hok).2, ?_⟩
  · rcases hok with h | ⟨ss, _, h⟩ <;> simp [h]
  · intro hclosed later s1 hlater
    exact stateAfter_induction (fun x => x.handles = [x.p.handle])
      (fun x ev hx => by
        show (iteration x ev).2.handles = [(iteration x ev).2.p.handle]
        rw [iteration_p x ev]
        exact iteration_child_only x ev hx) hlater hclosed

theorem wait_set_invariant_witness :
    waitSetOk Sample.splashClosed ∧ Sample.splashClosed.handles = [12] :=
  ⟨(wait_set_invariant Sample.splashApp Sample.fs Sample.os {} Sample.started
      Sample.splashClosed [{ wait_result := 0 }] (by decide) (by decide)).2.1,
   by decide⟩

/-- An iteration that returns by the process-exit branch had a wait result that
is the index of the child's handle in the wait set, and it records the value
`GetExitCodeProcess` stored in that iteration. -/
theorem iteration_exited (s : LoopState) (ev : WaitStep)
    (h : (iteration s ev).1 = some Exit.process_exited) :
    s.handles[ev.wait_result % 2 ^ 32]? = some s.p.handle ∧
    (iteration s ev).2.d = { s.d with app_exit_code := toInt ev.exit_code } := by
  have hidx : (ev.wait_result % 2 ^ 32 + 2 ^ 32 - WAIT_OBJECT_0) % 2 ^ 32
      = ev.wait_result % 2 ^ 32 := by
    simp only [WAIT_OBJECT_0, DWORD]
    omega
  unfold iteration at h ⊢
  simp only [hidx] at h ⊢
  split_ifs at h ⊢ with c1 c2 c3 c4 c5
  all_goals first
    | (simp at h; done)
    | skip
  · refine ⟨?_, by simp [Process.GetExitCode]⟩
    rw [List.getD_eq_getElem?_getD, List.getElem?_eq_getElem c4] at c5
    rw [List.getElem?_eq_getElem c4]
    simpa using c5
  · split at h
    · split_ifs at h
    · simp at h

theorem loop_exited (s : LoopState) (waits : List WaitStep)
    (h : (loop s waits).exit = Exit.process_exited) :
    ∃ pre ev post s1, waits = pre ++ ev :: post ∧ stateAfter s pre = some s1 ∧
      (iteration s1 ev).1 = some Exit.process_exited ∧
      (loop s waits).d = (iteration s1 ev).2.d := by
  induction waits generalizing s with
  | nil => simp [loop] at h
  | cons ev rest ih =>
    rcases hit : iteration s ev with ⟨_ | e, s2⟩
    · rw [loop_cons_none hit] at h ⊢
      obtain ⟨pre, ev1, post, s1, hw, hst, hex, hd⟩ := ih s2 h
      refine ⟨ev :: pre, ev1, post, s1, by rw [hw]; rfl, ?_, hex, hd⟩
      simp only [stateAfter, hit]
      exact hst
    · rw [loop_cons_some hit] at h ⊢
      simp only at h
      subst h
      exact ⟨[], ev, rest, s, rfl, rfl, by rw [hit], by rw [hit]⟩

/-- C22: in every run, either `GetApplicationExitCode` is what it was before
`Run` and `Run` did not end by the process-exit branch, or the child was
started and, after iterations `pre` that did not end the loop, an iteration
whose wait result is the index of the child's handle in the wait set ended
`Run`, and `GetApplicationExitCode` is the value `GetExitCodeProcess` stored in
that very iteration, read as an `int`. -/
theorem Run_exit_code_source (d : LauncherPriv) (fs : Filesystem) (os : Replies)
    (waits : List WaitStep) (w : World) :
    ((Run d fs os waits w).exit ≠ Exit.process_exited ∧
      GetApplicationExitCode (Run d fs os waits w).d = GetApplicationExitCode d) ∨
    ∃ s0 pre ev post s,
      setup d fs os w = Sum.inr s0 ∧ waits = pre ++ ev :: post ∧
      stateAfter s0 pre = some s ∧
      s.handles[ev.wait_result % 2 ^ 32]? = some s.p.handle ∧
      (Run d fs os waits w).exit = Exit.process_exited ∧
      GetApplicationExitCode (Run d fs os waits w).d = toInt ev.exit_code := by
  by_cases hex : (Run d fs os waits w).exit = Exit.process_exited
  · right
    cases hs : setup d fs os w with
    | inl r =>
      have := setup_exit_code d fs os w
      rw [hs] at this
      simp only [Run, hs] at hex
      exact absurd hex this.2
    | inr s0 =>
      have hl : (loop s0 waits).exit = Exit.process_exited := by
        simpa only [Run, hs] using hex
      obtain ⟨pre, ev, post, s, hw, hst, hi, hd⟩ := loop_exited s0 waits hl
      obtain ⟨h1, h2⟩ := iteration_exited s ev hi
      refine ⟨s0, pre, ev, post, s, rfl, hw, hst, h1, hex, ?_⟩
      simp only [Run, hs, GetApplicationExitCode, hd, h2]
  · left
    exact ⟨hex, Run_exit_code_of_not_exited d fs os waits w hex⟩

/-- A loop whose waits all fail never returns: it is blocked in the next wait,
with the launcher and the wait set it started with. -/
theorem loop_all_failed (s : LoopState) (waits : List WaitStep)
    (h : ∀ ev ∈ waits, ev.wait_result = WAIT_FAILED) :
    (loop s waits).exit = Exit.blocked ∧ (loop s waits).d = s.d ∧
    ∃ s1, stateAfter s waits = some s1 ∧ s1.handles = s.handles ∧
      s1.w.trace.length = s.w.trace.length + 2 * waits.length := by
  induction waits generalizing s with
  | nil => exact ⟨rfl, rfl, s, rfl, rfl, rfl⟩
  | cons ev rest ih =>
    have hev := h ev (List.mem_cons_self _ _)
    have hrest : ∀ x ∈ rest, x.wait_result = WAIT_FAILED :=
      fun x hx => h x (List.mem_cons_of_mem _ hx)
    have hit := iteration_failed_eq s ev hev
    obtain ⟨i1, i2, s1, i3, i4, i5⟩ := ih _ hrest
    rw [loop_cons_none hit]
    refine ⟨i1, i2, s1, ?_, i4, ?_⟩
    · rw [stateAfter, hit]
      exact i3
    · rw [i5]
      simp only [World.emit, List.length_append, List.length_cons, List.length_nil]
      omega

/-- C24 (as stated, refuted): with the child of `Sample.started` running and a
wait primitive that fails on every call, there is no number of iterations after
which the wait loop has stopped. -/
theorem loop_never_stops_on_failing_waits :
    ¬ ∃ n : Nat, (loop Sample.started
        (List.replicate n { wait_result := WAIT_FAILED, last_error := 6 })).exit
      ≠ Exit.blocked := by
  rintro ⟨n, hn⟩
  exact hn (loop_all_failed _ _ (fun ev hev => by
    rw [List.eq_of_mem_replicate hev])).1

/-- C24 (amended): when every wait of a run of the loop fails, the loop has not
returned, whatever the number of waits: it is blocked in one more wait, the
launcher (exit code, splash screen, guard) is the one it started with, and the
state reached has the same wait set and two more trace entries per failed wait
(the wait and the line "wait failed"). -/
theorem loop_failing_waits_blocked (s : LoopState) (waits : List WaitStep)
    (h : ∀ ev ∈ waits, ev.wait_result = WAIT_FAILED) :
    (loop s waits).exit = Exit.blocked ∧ (loop s waits).d = s.d ∧
    ∃ s1, stateAfter s waits = some s1 ∧ s1.handles = s.handles ∧
      s1.w.trace.length = s.w.trace.length + 2 * waits.length :=
  loop_all_failed s waits h

theorem loop_failing_waits_blocked_witness :
    (loop Sample.started
        [{ wait_result := 4294967295, last_error := 6 },
         { wait_result := 4294967295, last_error := 6 }]).exit = Exit.blocked ∧
    GetApplicationExitCode (loop Sample.started
        [{ wait_result := 4294967295, last_error := 6 },
         { wait_result := 4294967295, last_error := 6 }]).d = 0 :=
  have h := loop_failing_waits_blocked Sample.started
    [{ wait_result := 4294967295, last_error := 6 },
     { wait_result := 4294967295, last_error := 6 }] (by decide)
  ⟨h.1, by rw [h.2.1]; decide⟩

end Launcher

theorem mem_dropHandle_of_ne (h h1 : HANDLE) (n : String) (l : List (HANDLE × String))
    (hne : h1 ≠ h) (hmem : (h1, n) ∈ l) : (h1, n) ∈ World.dropHandle h l := by
  induction l with
  | nil => simp at hmem
  | cons x rest ih =>
    obtain ⟨h2, n2⟩ := x
    simp only [World.dropHandle]
    rcases List.mem_cons.mp hmem with heq | hrest
    · have h21 : h2 = h1 := by
        have := congrArg Prod.fst heq
        exact this.symm
      have hn : n2 = n := by
        have := congrArg Prod.snd heq
        exact this.symm
      subst h21 hn
      rw [if_neg hne]
      exact List.mem_cons_self _ _
    · split_ifs
      · exact hrest
      · exact List.mem_cons_of_mem _ (ih hrest)

/-- C25: for two events `a` and `b` that do not hold the same handle, after
`a = std::move(b)` the event `a` holds what `b` held (handle, name and created
flag), `b` is null, the calls made are one `CloseHandle` of the handle `a` held
if it held one and nothing otherwise, the handle `b` held is not closed and is
still open if it was open before; so the handle is owned by `a` alone. -/
theorem Event_moveAssign_transfers (a b : Event) (w : World)
    (hown : ∀ pa pb, a.d = some pa → b.d = some pb → pa.handle ≠ pb.handle) :
    (Event.moveAssign a b w).1.d = b.d ∧
    GetHANDLE (Event.moveAssign a b w).1 = GetHANDLE b ∧
    (Event.moveAssign a b w).1.GetName = b.GetName ∧
    (Event.moveAssign a b w).1.Created = b.Created ∧
    (Event.moveAssign a b w).2.1.IsNull = true ∧
    GetHANDLE (Event.moveAssign a b w).2.1 = 0 ∧
    (Event.moveAssign a b w).2.2.trace
      = w.trace ++ (a.d.toList.map fun pa => Effect.CloseHandle pa.handle) ∧
    ∀ pb, b.d = some pb →
      Effect.CloseHandle pb.handle ∉ (a.d.toList.map fun pa => Effect.CloseHandle pa.handle) ∧
      ((pb.handle, pb.name) ∈ w.events →
        (pb.handle, pb.name) ∈ (Event.moveAssign a b w).2.2.events) := by
  refine ⟨rfl, rfl, rfl, rfl, rfl, rfl, ?_, ?_⟩
  · cases ha : a.d with
    | none => simp [Event.moveAssign, ha]
    | some pa => simp [Event.moveAssign, ha, Event.Close, World.CloseHandle]
  · intro pb hb
    cases ha : a.d with
    | none =>
      refine ⟨by simp, fun hmem => ?_⟩
      simpa [Event.moveAssign, ha] using hmem
    | some pa =>
      have hne := hown pa pb ha hb
      refine ⟨?_, fun hmem => ?_⟩
      · simp only [Option.toList, List.map_cons, List.map_nil, List.mem_singleton]
        intro hc
        injection hc with hc
        exact hne hc.symm
      · simp only [Event.moveAssign, ha, Option.isSome_some, if_true, Event.Close,
          World.CloseHandle]
        exact mem_dropHandle_of_ne _ _ _ _ (fun hc => hne hc.symm) hmem

theorem Event_moveAssign_transfers_witness :
    GetHANDLE (Event.moveAssign { d := some { name := "old", handle := 4, created := true } }
        { d := some { name := "new", handle := 8, created := true } }
        { events := [(8, "new"), (4, "old")] }).1 = 8 ∧
    (Event.moveAssign { d := some { name := "old", handle := 4, created := true } }
        { d := some { name := "new", handle := 8, created := true } }
        { events := [(8, "new"), (4, "old")] }).2.2.trace = [Effect.CloseHandle 4] ∧
    (Event.moveAssign { d := some { name := "old", handle := 4, created := true } }
        { d := some { name := "new", handle := 8, created := true } }
        { events := [(8, "new"), (4, "old")] }).2.2.events = [(8, "new")] :=
  have h := Event_moveAssign_transfers
    { d := some { name := "old", handle := 4, created := true } }
    { d := some { name := "new", handle := 8, created := true } }
    { events := [(8, "new"), (4, "old")] }
    (by
      intro pa pb ha hb
      injection ha with ha
      injection hb with hb
      subst ha hb
      decide)
  ⟨h.2.1, h.2.2.2.2.2.2.1, by decide⟩

namespace Launcher

/-- C26: on a launcher with the single-instance guard set whose guard event is
the one an earlier `Run` created and still holds open, a further `Run` for
which the system creates the new guard handle finds the event existing: the
new guard has `Created() == false`, the call returns by the already-running
exit after creating the new handle, closing the earlier one and printing the
message, and it creates no process; no other process need hold the event. -/
theorem Run_again_blocks_itself (d : LauncherPriv) (fs : Filesystem) (os : Replies)
    (waits : List WaitStep) (w : World) (g : EventPriv)
    (hsi : d.single_instance = true)
    (hheld : d.single_instance_event.d = some g)
    (hname : g.name = d.appname ++ "InstanceRunning")
    (hopen : (g.handle, g.name) ∈ w.events)
    (hnew : os.guard_handle ≠ 0) :
    (Run d fs os waits w).exit = Exit.already_running ∧
    (Run d fs os waits w).d.single_instance_event.Created = false ∧
    GetHANDLE (Run d fs os waits w).d.single_instance_event = os.guard_handle ∧
    (Run d fs os waits w).w.trace = w.trace ++
      [Effect.CreateEventW (d.appname ++ "InstanceRunning") os.guard_handle,
       Effect.CloseHandle g.handle,
       Effect.print "app already running, exiting..."] ∧
    GetApplicationExitCode (Run d fs os waits w).d = GetApplicationExitCode d := by
  have hex : w.eventExists (d.appname ++ "InstanceRunning") = true := by
    simp only [World.eventExists, Bool.or_eq_true, List.contains_iff_exists_mem_beq,
      List.mem_map]
    right
    exact ⟨g.name, ⟨(g.handle, g.name), hopen, rfl⟩, by simp [hname]⟩
  have hg : guard d os w =
      (some Exit.already_running,
        { d with single_instance_event :=
            { d := some { name := d.appname ++ "InstanceRunning", handle := os.guard_handle,
                          created := false } } },
        { w with
          events := World.dropHandle g.handle ((os.guard_handle,
            d.appname ++ "InstanceRunning") :: w.events)
          last_error := ERROR_ALREADY_EXISTS
          trace := w.trace ++
            [Effect.CreateEventW (d.appname ++ "InstanceRunning") os.guard_handle,
             Effect.CloseHandle g.handle,
             Effect.print "app already running, exiting..."] }) := by
    simp [guard, hsi, Event.new, World.CreateEventW, hnew, hex, Event.moveAssign, hheld,
      Event.Close, World.CloseHandle, Event.Created, World.emit]
  simp [Run, setup, hg, Event.Created, GetHANDLE, GetApplicationExitCode]

theorem Run_again_blocks_itself_witness :
    (Run Sample.app Sample.fs Sample.os [{ wait_result := 0, exit_code := 0 }] {}).exit
      = Exit.process_exited ∧
    (Run Sample.app Sample.fs Sample.os [{ wait_result := 0, exit_code := 0 }]
        {}).w.foreign = [] ∧
    (Run (Run Sample.app Sample.fs Sample.os [{ wait_result := 0, exit_code := 0 }] {}).d
        Sample.fs { Sample.os with guard_handle := 16 } []
        (Run Sample.app Sample.fs Sample.os [{ wait_result := 0, exit_code := 0 }] {}).w).exit
      = Exit.already_running :=
  ⟨by decide, by decide,
   (Run_again_blocks_itself
      (Run Sample.app Sample.fs Sample.os [{ wait_result := 0, exit_code := 0 }] {}).d
      Sample.fs { Sample.os with guard_handle := 16 } []
      (Run Sample.app Sample.fs Sample.os [{ wait_result := 0, exit_code := 0 }] {}).w
      { name := "AppInstanceRunning", handle := 4, created := true }
      (by decide) (by decide) (by decide) (by decide) (by decide)).1⟩

/-- When the close event cannot be created on a splash screen that holds none,
`splash` leaves the splash screen without close event. -/
theorem splash_not_created (d : LauncherPriv) (os : Replies) (w : World) (ss : SplashScreenPriv)
    (hss : d.ss = some ss) (hnull : ss.close_event.IsNull = true)
    (hfail : os.close_handle = 0 ∨
      w.eventExists (Impl.compute_close_event_name d.appname d.single_instance os.tick) = true) :
    ∃ ss1, (splash d os w).1.ss = some ss1 ∧ ss1.close_event.GetName = "" := by
  have hd : ss.close_event.d = none := by
    simpa [Event.IsNull] using hnull
  by_cases hr : os.close_handle = 0
  · simp [splash, hss, SplashScreen.CreateCloseEvent, Event.Create, World.CreateEventW, hr,
      Event.IsNull, hd, Event.GetName]
  · have hx := hfail.resolve_left hr
    simp [splash, hss, SplashScreen.CreateCloseEvent, Event.Create, World.CreateEventW, hr, hx,
      ERROR_ALREADY_EXISTS, Event.IsNull, hd, Event.GetName]

/-- C27: with a splash supplied, single-instance mode off, and the creation of
the close event failing (no handle, or an event of that name exists) on a
splash screen that holds no close event, `Run` still calls `CreateProcess`, with
an environment: the one `GetSystemEnvironment()` returned in which
`CLOSE_SPLASHSCREEN_EVENT_NAME` is assigned the empty string. -/
theorem Run_injects_empty_name (d : LauncherPriv) (fs : Filesystem) (os : Replies)
    (waits : List WaitStep) (w : World) (ss : SplashScreenPriv)
    (hss : d.ss = some ss) (hsi : d.single_instance = false)
    (hnull : ss.close_event.IsNull = true)
    (hfail : os.close_handle = 0 ∨
      w.eventExists (Impl.compute_close_event_name d.appname false os.tick) = true) :
    Effect.CreateProcess (exe_path d fs os)
        (some (os.sysenv.Insert "CLOSE_SPLASHSCREEN_EVENT_NAME" "")) os.process_handle
      ∈ (Run d fs os waits w).w.trace ∧
    (os.sysenv.Insert "CLOSE_SPLASHSCREEN_EVENT_NAME" "").find "CLOSE_SPLASHSCREEN_EVENT_NAME"
      = some "" := by
  refine ⟨?_, lookup_mapAssign_self _ _ _⟩
  apply (Run_trace_of_setup d fs os waits w).subset
  rw [setup_trace d fs os w (by rw [guard_off d os w hsi]), guard_off d os w hsi]
  obtain ⟨ss1, h1, h2⟩ := splash_not_created d os w ss hss hnull (by rw [hsi]; exact hfail)
  have hsi1 : (splash d os w).1.single_instance = false :=
    (splash_config d os w).2.2.2.trans hsi
  have henv : (prepare (splash d os w).1 fs os).environment =
      some (os.sysenv.Insert "CLOSE_SPLASHSCREEN_EVENT_NAME" "") := by
    simp [prepare, h1, hsi1, Process.SetProcessEnvironment, Process.SetExecutablePath,
      SplashScreen.GetCloseEvent, h2]
  rw [henv]
  simp

theorem Run_injects_empty_name_witness :
    Effect.CreateProcess "C:/bin/App.exe"
        (some { m_vars := [("CLOSE_SPLASHSCREEN_EVENT_NAME", ""), ("PATH", "x")] }) 12
      ∈ (Run Sample.splashApp Sample.fs Sample.os [] Sample.stale).w.trace :=
  (Run_injects_empty_name Sample.splashApp Sample.fs Sample.os [] Sample.stale {}
    (by decide) (by decide) (by decide) (by decide)).1

end Launcher

theorem take_append_replicate (l : List Char) (n : Nat) :
    (l ++ NUL :: List.replicate (n + 1) NUL).take (l.length + (n + 1))
      = l ++ List.replicate (n + 1) NUL := by
  induction l with
  | nil =>
    simp only [List.nil_append, List.length_nil, Nat.zero_add]
    rw [← List.replicate_succ, List.take_replicate]
    congr 1
    omega
  | cons x rest ih =>
    simp only [List.cons_append, List.length_cons]
    rw [show rest.length + 1 + (n + 1) = (rest.length + (n + 1)) + 1 by omega, List.take_succ_cons,
      ih]

/-- The value `GetStringValue` gives for what `SetValue` stored: the size the
registry reports, a number of bytes, is used as a number of characters, so the
string comes back followed by `s.length + 1` NUL characters. -/
theorem GetStringValue_SetValue (k : RegistryKey) (name s : String) (reg : RegStore)
    (hlen : 2 * (s.length + 1) < 2 ^ 32) :
    RegistryKey.GetStringValue k name (RegistryKey.SetValue k name s 0 reg)
      = Except.ok (s ++ String.mk (List.replicate (s.length + 1) NUL)) := by
  have hn : s.length = s.data.length := rfl
  rw [hn] at hlen ⊢
  have hmod : (2 * (s.data.length + 1)) % 2 ^ 32 / 2 = s.data.length + 1 := by
    rw [Nat.mod_eq_of_lt hlen]
    omega
  have htake : (s.data ++ [NUL]).take (s.data.length + 1) = s.data ++ [NUL] := by
    rw [List.take_of_length_le]
    simp
  have hstore : RegistryKey.SetValue k name s 0 reg
      = ((GetHKEY k, name.data), s.data ++ [NUL]) :: reg := by
    simp only [RegistryKey.SetValue, RegSetValueExW, ToUtf16, if_true, hmod, htake]
  have hlook : List.lookup (GetHKEY k, name.data)
      (((GetHKEY k, name.data), s.data ++ [NUL]) :: reg) = some (s.data ++ [NUL]) := by
    simp [List.lookup]
  have hdrop : (List.replicate (2 * (s.data.length + 1)) NUL).drop (s.data.length + 1)
      = List.replicate (s.data.length + 1) NUL := by
    rw [List.drop_replicate]
    congr 1
    omega
  have hpos : 2 * (s.data.length + 1) > 0 := by omega
  have hsub : 2 * (s.data.length + 1) - 1 = s.data.length + (s.data.length + 1) := by omega
  rw [hstore]
  simp only [RegistryKey.GetStringValue, RegGetValueW, ToUtf16, hlook, resize, List.take_nil,
    List.nil_append, List.length_nil, Nat.sub_zero, List.length_append, List.length_singleton,
    ne_eq, not_true_eq_false, if_false, lt_irrefl, Option.getD_some, hdrop, hpos, if_true,
    hsub, ToUtf8, List.append_assoc, List.singleton_append, take_append_replicate,
    List.length_replicate]
  have h0 : s.data.length + (s.data.length + 1) -
      (s.data.length + (NUL :: List.replicate (s.data.length + 1) NUL).length) = 0 := by
    simp only [List.length_cons, List.length_replicate]
    omega
  rw [h0, List.replicate_zero, List.append_nil]
  rfl

/-- C30 (refuted in the code): after `SetValue(name, s)` with a status of
success, `GetStringValue(name)` returns `s` followed by `s.length + 1` NUL
characters, a string of length `2 * s.length + 1`, which is never `s`. -/
theorem GetStringValue_after_SetValue_padded (k : RegistryKey) (name s : String)
    (reg : RegStore) (hlen : 2 * (s.length + 1) < 2 ^ 32) :
    ∃ r, RegistryKey.GetStringValue k name (RegistryKey.SetValue k name s 0 reg) = Except.ok r ∧
      r = s ++ String.mk (List.replicate (s.length + 1) NUL) ∧
      r.length = 2 * s.length + 1 ∧ r ≠ s := by
  have hl : (s ++ String.mk (List.replicate (s.length + 1) NUL)).length
      = 2 * s.length + 1 := by
    rw [String.length_append]
    have : (String.mk (List.replicate (s.length + 1) NUL)).length = s.length + 1 := by
      show (List.replicate (s.length + 1) NUL).length = s.length + 1
      exact List.length_replicate _ _
    omega
  refine ⟨_, GetStringValue_SetValue k name s reg hlen, rfl, hl, ?_⟩
  intro hc
  rw [hc] at hl
  omega

theorem GetStringValue_after_SetValue_padded_witness :
    ∃ r, RegistryKey.GetStringValue Registry.HKEY_CURRENT_USER "n"
        (RegistryKey.SetValue Registry.HKEY_CURRENT_USER "n" "ab" 0 []) = Except.ok r ∧
      r = "ab" ++ String.mk (List.replicate ("ab".length + 1) NUL) ∧
      r.length = 2 * "ab".length + 1 ∧ r ≠ "ab" :=
  GetStringValue_after_SetValue_padded Registry.HKEY_CURRENT_USER "n" "ab" [] (by decide)

theorem keyLess_irrefl (a : List Char) : keyLess a a = false := by
  induction a with
  | nil => rfl
  | cons x rest ih => simp [keyLess, ih]

theorem keyLess_asymm (a b : List Char) (h : keyLess a b = true) : keyLess b a = false := by
  induction a generalizing b with
  | nil =>
    cases b with
    | nil => rfl
    | cons y bs => rfl
  | cons x as ih =>
    cases b with
    | nil => simp [keyLess] at h
    | cons y bs =>
      simp only [keyLess] at h ⊢
      split_ifs at h ⊢ with h1 h2 h3
      all_goals first
        | rfl
        | omega
        | exact ih bs h

theorem mapAssign_append (name value : String) (m : List (String × String))
    (h : ∀ p ∈ m, keyLess p.1.data name.data = true) :
    mapAssign name value m = m ++ [(name, value)] := by
  induction m with
  | nil => rfl
  | cons x rest ih =>
    obtain ⟨k, v⟩ := x
    have hk : keyLess k.data name.data = true := h (k, v) (List.mem_cons_self _ _)
    have hne : k ≠ name := by
      intro hc
      rw [hc, keyLess_irrefl] at hk
      exact Bool.noConfusion hk
    have hnot : keyLess name.data k.data = false := keyLess_asymm _ _ hk
    simp only [mapAssign, if_neg hne, hnot, List.cons_append]
    rw [ih (fun p hp => h p (List.mem_cons_of_mem _ hp))]
    simp

theorem foldl_Insert_sorted (l acc : List (String × String))
    (hsorted : l.Pairwise (fun a b => keyLess a.1.data b.1.data = true))
    (hacc : ∀ a ∈ acc, ∀ b ∈ l, keyLess a.1.data b.1.data = true) :
    l.foldl (fun r p => ProcessEnvironment.Insert r p.1 p.2) { m_vars := acc }
      = { m_vars := acc ++ l } := by
  induction l generalizing acc with
  | nil => simp
  | cons p rest ih =>
    rw [List.pairwise_cons] at hsorted
    have hins : ProcessEnvironment.Insert { m_vars := acc } p.1 p.2
        = { m_vars := acc ++ [(p.1, p.2)] } := by
      simp only [ProcessEnvironment.Insert]
      rw [mapAssign_append p.1 p.2 acc (fun a ha => hacc a ha p (List.mem_cons_self _ _))]
    rw [List.foldl_cons, hins, ih (acc ++ [(p.1, p.2)]) hsorted.2]
    · simp
    · intro a ha b hb
      rcases List.mem_append.mp ha with h1 | h1
      · exact hacc a h1 b (List.mem_cons_of_mem _ hb)
      · rw [List.mem_singleton] at h1
        subst h1
        exact hsorted.1 b hb

theorem foldl_envdata (l : List String) (acc : List Char) :
    l.foldl (fun envdata str => envdata ++ str.data ++ [NUL]) acc
      = acc ++ l.foldl (fun envdata str => envdata ++ str.data ++ [NUL]) [] := by
  induction l generalizing acc with
  | nil => simp
  | cons x rest ih =>
    simp only [List.foldl_cons, List.nil_append]
    rw [ih (acc ++ x.data ++ [NUL]), ih (x.data ++ [NUL])]
    simp

theorem environmentBlock_cons (k v : String) (rest : List (String × String)) :
    Process.environmentBlock { m_vars := (k, v) :: rest }
      = (k.data ++ '=' :: v.data) ++ NUL :: Process.environmentBlock { m_vars := rest } := by
  simp only [Process.environmentBlock, ProcessEnvironment.ToStringList]
  rw [foldl_push_back (fun p => p.1.push '=' ++ p.2), foldl_push_back (fun p => p.1.push '=' ++ p.2)]
  simp only [List.nil_append, List.map_cons, List.foldl_cons]
  rw [foldl_envdata]
  simp [String.data_append, String.data_push]

theorem scanToNul_append (body rest : List Char) (h : NUL ∉ body) :
    ProcessEnvironment.scanToNul (body ++ NUL :: rest) = some (body, rest) := by
  induction body with
  | nil => simp [ProcessEnvironment.scanToNul]
  | cons c cs ih =>
    have hc : c ≠ NUL := fun e => h (e ▸ List.mem_cons_self _ _)
    have hcs : NUL ∉ cs := fun e => h (List.mem_cons_of_mem _ e)
    simp [ProcessEnvironment.scanToNul, hc, ih hcs]

theorem takeWhile_name (k v : List Char) (h : '=' ∉ k) :
    (k ++ '=' :: v).takeWhile (fun x => x != '=') = k ∧
    (k ++ '=' :: v).dropWhile (fun x => x != '=') = '=' :: v := by
  induction k with
  | nil => simp [List.takeWhile, List.dropWhile]
  | cons c cs ih =>
    have hc : c ≠ '=' := fun e => h (e ▸ List.mem_cons_self _ _)
    have hcs : '=' ∉ cs := fun e => h (List.mem_cons_of_mem _ e)
    obtain ⟨i1, i2⟩ := ih hcs
    have hb : (c != '=') = true := by simp [hc]
    simp [List.takeWhile, List.dropWhile, hb, i1, i2]

/-- One turn of the outer loop on an entry `name=value` followed by its NUL. -/
theorem parseBlock_entry (fuel : Nat) (k v : String) (rest : List Char)
    (r : ProcessEnvironment)
    (hk : '=' ∉ k.data) (hk0 : NUL ∉ k.data) (hv0 : NUL ∉ v.data) :
    ProcessEnvironment.parseBlock (fuel + 1) ((k.data ++ '=' :: v.data) ++ NUL :: rest) r
      = ProcessEnvironment.parseBlock fuel rest (r.Insert k v) := by
  have hnul : NUL ∉ k.data ++ '=' :: v.data := by
    intro hm
    rcases List.mem_append.mp hm with h1 | h1
    · exact hk0 h1
    · rcases List.mem_cons.mp h1 with h2 | h2
      · exact absurd h2 (by decide)
      · exact hv0 h2
  have hmem : (k.data ++ '=' :: v.data).contains '=' = true := by
    simp
  obtain ⟨t1, t2⟩ := takeWhile_name k.data v.data hk
  generalize hentry : k.data ++ '=' :: v.data = entry at hnul hmem t1 t2 ⊢
  cases entry with
  | nil => simp at hmem
  | cons c body =>
    have hc : c ≠ NUL := fun e => hnul (e ▸ List.mem_cons_self _ _)
    have hbody : NUL ∉ body := fun e => hnul (List.mem_cons_of_mem _ e)
    have hscan := scanToNul_append body rest hbody
    simp only [List.cons_append, ProcessEnvironment.parseBlock, if_neg hc, List.append_eq,
      hscan, hmem, if_true, t1, t2, List.tail_cons]

theorem environmentBlock_length (l : List (String × String)) :
    l.length < (Process.environmentBlock { m_vars := l }).length := by
  induction l with
  | nil => simp [Process.environmentBlock, ProcessEnvironment.ToStringList]
  | cons p rest ih =>
    obtain ⟨k, v⟩ := p
    rw [environmentBlock_cons]
    simp only [List.length_append, List.length_cons]
    omega

theorem parseBlock_environmentBlock (l : List (String × String)) (fuel : Nat)
    (r : ProcessEnvironment)
    (hchars : ∀ p ∈ l, '=' ∉ p.1.data ∧ NUL ∉ p.1.data ∧ NUL ∉ p.2.data)
    (hfuel : l.length < fuel) :
    ProcessEnvironment.parseBlock fuel (Process.environmentBlock { m_vars := l }) r
      = some (l.foldl (fun r p => ProcessEnvironment.Insert r p.1 p.2) r) := by
  induction l generalizing fuel r with
  | nil =>
    cases fuel with
    | zero => omega
    | succ n => simp [Process.environmentBlock, ProcessEnvironment.ToStringList,
        ProcessEnvironment.parseBlock]
  | cons p rest ih =>
    obtain ⟨k, v⟩ := p
    cases fuel with
    | zero => omega
    | succ n =>
      obtain ⟨h1, h2, h3⟩ := hchars (k, v) (List.mem_cons_self _ _)
      rw [environmentBlock_cons, parseBlock_entry n k v _ r h1 h2 h3]
      rw [ih n (r.Insert k v) (fun p hp => hchars p (List.mem_cons_of_mem _ hp))
        (by simp only [List.length_cons] at hfuel; omega)]
      rfl

/-- C29: for an environment whose variables are kept as a map (keys strictly
increasing), whose names contain no `=` and whose names and values contain no
NUL, the block `Process::Start` builds is parsed by the loop of
`GetSystemEnvironment` into the same environment; the parse ends with a result,
so no read of the parser leaves the block and the fuel is not used up. -/
theorem GetSystemEnvironment_environmentBlock (penv : ProcessEnvironment)
    (hmap : penv.isMap)
    (hchars : ∀ p ∈ penv.m_vars, '=' ∉ p.1.data ∧ NUL ∉ p.1.data ∧ NUL ∉ p.2.data) :
    ProcessEnvironment.GetSystemEnvironment (Process.environmentBlock penv) = some penv := by
  obtain ⟨l⟩ := penv
  unfold ProcessEnvironment.GetSystemEnvironment
  rw [parseBlock_environmentBlock l _ {} hchars
    (Nat.lt_succ_of_lt (environmentBlock_length l))]
  have := foldl_Insert_sorted l [] hmap (fun a ha => by simp at ha)
  simp only [List.nil_append] at this
  exact congrArg some this

theorem GetSystemEnvironment_environmentBlock_witness :
    Process.environmentBlock { m_vars := [("", "b=c"), ("A", ""), ("PATH", "x")] }
      = ['=', 'b', '=', 'c', NUL, 'A', '=', NUL, 'P', 'A', 'T', 'H', '=', 'x', NUL, NUL] ∧
    ProcessEnvironment.GetSystemEnvironment
        (Process.environmentBlock { m_vars := [("", "b=c"), ("A", ""), ("PATH", "x")] })
      = some { m_vars := [("", "b=c"), ("A", ""), ("PATH", "x")] } :=
  ⟨by decide,
   GetSystemEnvironment_environmentBlock
     { m_vars := [("", "b=c"), ("A", ""), ("PATH", "x")] } (by decide) (by decide)⟩

theorem Event_Create_events_mem (name : String) (reply : HANDLE) (err : DWORD) (w : World)
    (x : HANDLE × String) (hx : x ∈ w.events) :
    x ∈ (Event.Create name reply err w).2.events := by
  unfold Event.Create World.CreateEventW
  by_cases hr : reply = 0
  · simp [hr, hx]
  · by_cases hex : w.eventExists name = true
    · simp [hr, hex, ERROR_ALREADY_EXISTS, World.CloseHandle, World.dropHandle, hx]
    · simp [hr, hex, ERROR_ALREADY_EXISTS, hx]

theorem moveAssign_events_mem (a b : Event) (w : World) (h : HANDLE) (n : String)
    (hx : (h, n) ∈ w.events) (hne : ∀ p, a.d = some p → p.handle ≠ h) :
    (h, n) ∈ (Event.moveAssign a b w).2.2.events := by
  cases ha : a.d with
  | none => simpa [Event.moveAssign, ha] using hx
  | some p =>
    simp only [Event.moveAssign, ha, Option.isSome_some, if_true, Event.Close, World.CloseHandle]
    exact mem_dropHandle_of_ne _ _ _ _ (fun hc => hne p ha hc.symm) hx

theorem CreateCloseEvent_events_mem (ss : SplashScreenPriv) (name : String) (reply : HANDLE)
    (err : DWORD) (w : World) (h : HANDLE) (n : String)
    (hx : (h, n) ∈ w.events) (hne : ∀ p, ss.close_event.d = some p → p.handle ≠ h) :
    (h, n) ∈ (SplashScreen.CreateCloseEvent ss name reply err w).2.2.events := by
  have hc := Event_Create_events_mem name reply err w (h, n) hx
  unfold SplashScreen.CreateCloseEvent
  simp only
  split
  · dsimp only
    exact moveAssign_events_mem ss.close_event _ _ h n hc hne
  · exact hc

namespace Launcher

theorem splash_events_mem (d : LauncherPriv) (os : Replies) (w : World) (h : HANDLE)
    (n : String) (hx : (h, n) ∈ w.events)
    (hne : ∀ ss p, d.ss = some ss → ss.close_event.d = some p → p.handle ≠ h) :
    (h, n) ∈ (splash d os w).2.2.events := by
  unfold splash
  split
  · exact hx
  · rename_i ss hss
    have hc := CreateCloseEvent_events_mem ss
      (Impl.compute_close_event_name d.appname d.single_instance os.tick)
      os.close_handle os.close_error w h n hx (fun p hp => hne ss p hss hp)
    simp only
    split_ifs
    · simp only [SplashScreen.Show]
      split_ifs <;> simpa [World.emit] using hc
    · simpa [World.emit] using hc

theorem drain_events (q : List MSG) (w : World) : (drain w q).2.2.events = w.events := by
  induction q generalizing w with
  | nil => rfl
  | cons m rest ih =>
    unfold drain
    split_ifs
    · rfl
    · rw [ih]
      rfl

theorem iteration_events (s : LoopState) (ev : WaitStep) :
    (iteration s ev).2.w.events = s.w.events := by
  have hd := drain_events ev.queue (s.w.emit (Effect.MsgWaitForMultipleObjects s.handles))
  unfold iteration
  simp only
  split_ifs
  · rfl
  · exact hd
  · exact hd
  · rfl
  · split
    · split_ifs
      · simp only [SplashScreen.Close]
        split_ifs <;> rfl
      · rfl
    · rfl
  · rfl

theorem loop_events (s : LoopState) (waits : List WaitStep) :
    (loop s waits).w.events = s.w.events := by
  induction waits generalizing s with
  | nil => rfl
  | cons ev rest ih =>
    rcases hit : iteration s ev with ⟨_ | e, s1⟩
    · rw [loop_cons_none hit, ih s1]
      have := iteration_events s ev
      rw [hit] at this
      exact this
    · rw [loop_cons_some hit]
      have := iteration_events s ev
      rw [hit] at this
      exact this

/-- What `Run` is when the guard ends it. -/
theorem Run_of_guard_exit (d : LauncherPriv) (fs : Filesystem) (os : Replies)
    (waits : List WaitStep) (w : World) (e : Exit) (hg : (guard d os w).1 = some e) :
    Run d fs os waits w = { d := (guard d os w).2.1, w := (guard d os w).2.2, exit := e } := by
  simp [Run, setup, hg]

theorem guard_exit_cases (d : LauncherPriv) (os : Replies) (w : World) (e : Exit)
    (hg : (guard d os w).1 = some e) :
    e = Exit.already_running ∨ ∃ x, e = Exit.thrown x := by
  unfold guard at hg
  split_ifs at hg
  · simp only at hg
    split at hg
    · right
      exact ⟨_, (Option.some.inj hg).symm⟩
    · split_ifs at hg
      left
      exact (Option.some.inj hg).symm

/-- A launcher that passes the guard holds a handle to the guard event. -/
theorem guard_pass_holds (d : LauncherPriv) (os : Replies) (w : World)
    (hsi : d.single_instance = true) (hg : (guard d os w).1 = none)
    (hfresh : ∀ p, d.single_instance_event.d = some p → p.handle ≠ os.guard_handle) :
    (os.guard_handle, d.appname ++ "InstanceRunning") ∈ (guard d os w).2.2.events := by
  by_cases hh : os.guard_handle = 0
  · simp [guard, hsi, Event.new, World.CreateEventW, hh] at hg
  · by_cases hex : w.eventExists (d.appname ++ "InstanceRunning") = true
    · simp [guard, hsi, Event.new, World.CreateEventW, hh, hex, Event.moveAssign,
        Event.Created] at hg
    · have hm : (os.guard_handle, d.appname ++ "InstanceRunning") ∈
          (Event.moveAssign d.single_instance_event
            { d := some { name := d.appname ++ "InstanceRunning", handle := os.guard_handle,
                          created := true } }
            (w.CreateEventW (d.appname ++ "InstanceRunning") os.guard_handle
              os.guard_error).2).2.2.events :=
        moveAssign_events_mem _ _ _ _ _
          (by simp [World.CreateEventW, hh]) hfresh
      simpa [guard, hsi, Event.new, World.CreateEventW, hh, hex, ERROR_ALREADY_EXISTS,
        Event.Created, Event.moveAssign] using hm

theorem Run_holds_guard (d : LauncherPriv) (fs : Filesystem) (os : Replies)
    (waits : List WaitStep) (w : World)
    (hsi : d.single_instance = true) (hg : (guard d os w).1 = none)
    (hfresh : ∀ p, d.single_instance_event.d = some p → p.handle ≠ os.guard_handle)
    (hfresh_ss : ∀ ss p, d.ss = some ss → ss.close_event.d = some p →
      p.handle ≠ os.guard_handle) :
    (Run d fs os waits w).w.eventExists (d.appname ++ "InstanceRunning") = true := by
  have h1 := guard_pass_holds d os w hsi hg hfresh
  have h2 := splash_events_mem (guard d os w).2.1 os (guard d os w).2.2 _ _ h1
    (by rw [(guard_config d os w).2.2.2.2]; exact hfresh_ss)
  have h3 : (os.guard_handle, d.appname ++ "InstanceRunning") ∈
      (Run d fs os waits w).w.events := by
    unfold Run
    rw [setup_eq d fs os w hg]
    split_ifs
    · exact h2
    · simp only [loop_events]
      exact h2
  simp only [World.eventExists, Bool.or_eq_true, List.contains_iff_exists_mem_beq, List.mem_map]
  right
  exact ⟨_, ⟨_, h3, rfl⟩, by simp⟩

/-- What the guard does when the guard event exists. -/
theorem guard_of_exists (d : LauncherPriv) (os : Replies) (w : World)
    (hsi : d.single_instance = true)
    (hex : w.eventExists (d.appname ++ "InstanceRunning") = true) :
    (os.guard_handle ≠ 0 →
      (guard d os w).1 = some Exit.already_running ∧
      (guard d os w).2.1.single_instance_event.Created = false) ∧
    (os.guard_handle = 0 →
      (guard d os w).1
        = some (Exit.thrown (Exception.new { m_value := toInt os.guard_error }))) := by
  by_cases hh : os.guard_handle = 0
  · simp [guard, hsi, Event.new, World.CreateEventW, hh, GetLastError]
  · simp [guard, hsi, Event.new, World.CreateEventW, hh, hex, Event.moveAssign, Event.Created]

/-- C18 (as stated, refuted): two launchers of `App` in single-instance mode.
The first has observed `Created() == true` and is in its wait loop; the second
calls `Run` while the first holds the guard and the system returns it no
handle (error 5): its `Run` does not return, it is left by the exception of the
`Event` constructor. -/
theorem Run_concurrent_denied_throws :
    (guard Sample.app Sample.os {}).1 = none ∧
    (Run Sample.app Sample.fs Sample.os [] {}).exit = Exit.blocked ∧
    (Run Sample.app Sample.fs Sample.os [] {}).w.eventExists "AppInstanceRunning" = true ∧
    (Run Sample.app Sample.fs Sample.osDenied []
        (Run Sample.app Sample.fs Sample.os [] {}).w).exit
      = Exit.thrown (Exception.new { m_value := 5 }) ∧
    (Run Sample.app Sample.fs Sample.osDenied []
        (Run Sample.app Sample.fs Sample.os [] {}).w).exit ≠ Exit.already_running := by
  decide

/-- C18 (amended): two launchers with the same appname, both in single-instance
mode.  Launcher 1 is the one whose guard is served first; launcher 2 calls
`Run` while launcher 1 is in or after its `Run`, in a world in which every
named event of launcher 1's world exists.  The handle launcher 1 receives for
its guard differs from the handles it held before.  Then at most one of the
two passes the guard, that is observes `Created() == true`; a launcher that
does not pass ends `Run` at the guard, by the already-running return or by the
exception of the `Event` constructor, having made no call of `Show` or
`CreateProcess`; and once launcher 1 has passed, launcher 2 returns by the
already-running exit with `Created() == false` when the system returns it a
handle, and is left by the exception when the system returns none. -/
theorem Run_concurrent_pair (d1 d2 : LauncherPriv) (fs1 fs2 : Filesystem) (os1 os2 : Replies)
    (waits1 waits2 : List WaitStep) (w1 w2 : World)
    (hname : d2.appname = d1.appname)
    (hsi1 : d1.single_instance = true) (hsi2 : d2.single_instance = true)
    (hfresh : ∀ p, d1.single_instance_event.d = some p → p.handle ≠ os1.guard_handle)
    (hfresh_ss : ∀ ss p, d1.ss = some ss → ss.close_event.d = some p →
      p.handle ≠ os1.guard_handle)
    (hshare : ∀ n, (Run d1 fs1 os1 waits1 w1).w.eventExists n = true →
      w2.eventExists n = true) :
    ¬ ((guard d1 os1 w1).1 = none ∧ (guard d2 os2 w2).1 = none) ∧
    ((guard d1 os1 w1).1 ≠ none →
      ((Run d1 fs1 os1 waits1 w1).exit = Exit.already_running ∨
        ∃ x, (Run d1 fs1 os1 waits1 w1).exit = Exit.thrown x) ∧
      w1.extendsBy (Run d1 fs1 os1 waits1 w1).w Effect.isQuiet) ∧
    ((guard d2 os2 w2).1 ≠ none →
      ((Run d2 fs2 os2 waits2 w2).exit = Exit.already_running ∨
        ∃ x, (Run d2 fs2 os2 waits2 w2).exit = Exit.thrown x) ∧
      w2.extendsBy (Run d2 fs2 os2 waits2 w2).w Effect.isQuiet) ∧
    ((guard d1 os1 w1).1 = none →
      w2.extendsBy (Run d2 fs2 os2 waits2 w2).w Effect.isQuiet ∧
      (os2.guard_handle ≠ 0 →
        (Run d2 fs2 os2 waits2 w2).exit = Exit.already_running ∧
        (Run d2 fs2 os2 waits2 w2).d.single_instance_event.Created = false) ∧
      (os2.guard_handle = 0 →
        (Run d2 fs2 os2 waits2 w2).exit
          = Exit.thrown (Exception.new { m_value := toInt os2.guard_error }))) := by
  have hstop : ∀ (d : LauncherPriv) (fs : Filesystem) (os : Replies) (waits : List WaitStep)
      (w : World), (guard d os w).1 ≠ none →
      ((Run d fs os waits w).exit = Exit.already_running ∨
        ∃ x, (Run d fs os waits w).exit = Exit.thrown x) ∧
      w.extendsBy (Run d fs os waits w).w Effect.isQuiet := by
    intro d fs os waits w hg
    cases hge : (guard d os w).1 with
    | none => exact absurd hge hg
    | some e =>
      rw [Run_of_guard_exit d fs os waits w e hge]
      exact ⟨guard_exit_cases d os w e hge, guard_extends d os w⟩
  have hsecond : (guard d1 os1 w1).1 = none →
      w2.eventExists (d2.appname ++ "InstanceRunning") = true := by
    intro hg
    rw [hname]
    exact hshare _ (Run_holds_guard d1 fs1 os1 waits1 w1 hsi1 hg hfresh hfresh_ss)
  refine ⟨?_, hstop d1 fs1 os1 waits1 w1, hstop d2 fs2 os2 waits2 w2, ?_⟩
  · rintro ⟨hg1, hg2⟩
    have h2 := guard_of_exists d2 os2 w2 hsi2 (hsecond hg1)
    by_cases hh : os2.guard_handle = 0
    · rw [h2.2 hh] at hg2
      exact Option.noConfusion hg2
    · rw [(h2.1 hh).1] at hg2
      exact Option.noConfusion hg2
  · intro hg1
    have h2 := guard_of_exists d2 os2 w2 hsi2 (hsecond hg1)
    have hq : w2.extendsBy (Run d2 fs2 os2 waits2 w2).w Effect.isQuiet := by
      apply (hstop d2 fs2 os2 waits2 w2 _).2
      by_cases hh : os2.guard_handle = 0
      · rw [h2.2 hh]
        exact Option.noConfusion
      · rw [(h2.1 hh).1]
        exact Option.noConfusion
    refine ⟨hq, fun hh => ?_, fun hh => ?_⟩
    · rw [Run_of_guard_exit d2 fs2 os2 waits2 w2 _ (h2.1 hh).1]
      exact ⟨rfl, (h2.1 hh).2⟩
    · rw [Run_of_guard_exit d2 fs2 os2 waits2 w2 _ (h2.2 hh)]

theorem Run_concurrent_pair_witness :
    (guard Sample.app Sample.os {}).1 = none ∧
    (Run Sample.app Sample.fs Sample.os [] {}).exit = Exit.blocked ∧
    (Run Sample.app Sample.fs { Sample.os with guard_handle := 16 } []
        (Run Sample.app Sample.fs Sample.os [] {}).w).exit = Exit.already_running ∧
    (Run Sample.app Sample.fs { Sample.os with guard_handle := 16 } []
        (Run Sample.app Sample.fs Sample.os [] {}).w).d.single_instance_event.Created
      = false :=
  ⟨by decide, by decide,
   ((Run_concurrent_pair Sample.app Sample.app Sample.fs Sample.fs Sample.os
      { Sample.os with guard_handle := 16 } [] []
      {} (Run Sample.app Sample.fs Sample.os [] {}).w
      rfl (by decide) (by decide)
      (by
        intro p hp
        have h : Sample.app.single_instance_event.d = none := by decide
        rw [h] at hp
        cases hp)
      (by
        intro ss p hss
        have h : Sample.app.ss = none := by decide
        rw [h] at hss
        cases hss)
      (fun _ h => h)).2.2.2 (by decide)).2.1 (by decide)⟩

end Launcher

end Win32
